import Mathlib

/-!
Verification of the EtherCAT base datagram layer of the NEX repository
(`src/Nex_EC_Master/soem/ethercatbase.c`, and its duplicate variant
`src/unnamed/part_000`).

The C code is embedded shallowly:

* a frame buffer is a function `Nat → Nat`; a cell holds the raw value last
  stored there and every read reduces it modulo 256, mirroring `uint8`
  semantics;
* multi-byte stores/loads are little-endian, mirroring `htoes`/`etohs` on a
  little-endian wire (`setLE16`/`getLE16`, and the 64-bit analogues used by
  `htoell`/`etohll`);
* the transport (`Nexx__getindex`, `Nexx__srconfirm`, `Nexx__setbufstat`),
  which is out of scope per the spec, is an oracle `SRResult` carrying the
  working counter it returned and the receive buffer it filled (the receive
  buffer holds the returned frame with the 14-byte Ethernet header already
  stripped, as the spec's §4.1 step 7 and the source comment in
  `Nexx__adddatagram` state).

The repository does not ship `ethercattype.h`; the numeric constants it
defines are modelled from the spec (see the doc comment of each constant).
-/

/-- Store one byte: the raw value is kept, `rd` truncates on read. -/
def wr (f : Nat → Nat) (o v : Nat) : Nat → Nat :=
  fun i => if i = o then v else f i

/-- Read one byte of a frame buffer (`uint8` access, hence the mod 256). -/
def rd (f : Nat → Nat) (o : Nat) : Nat :=
  f o % 256

/-- Store a 16-bit value little-endian (the effect of assigning `htoes v`
to a 2-byte field on the wire). -/
def setLE16 (f : Nat → Nat) (o v : Nat) : Nat → Nat :=
  wr (wr f o v) (o + 1) (v / 256)

/-- Read a 16-bit little-endian value (the effect of `etohs` on a 2-byte
wire field). -/
def getLE16 (f : Nat → Nat) (o : Nat) : Nat :=
  rd f o + 256 * rd f (o + 1)

/-- Write `n` bytes `src 0 .. src (n-1)` at offsets `o .. o+n-1`
(`memcpy` into the frame; `memset` is the special case of a constant
source). -/
def writeBytes (f : Nat → Nat) (o : Nat) (src : Nat → Nat) : Nat → (Nat → Nat)
  | 0 => f
  | n + 1 => wr (writeBytes f o src n) (o + n) (src n)

/-- Modelled from the spec: the Ethernet header is 14 bytes (§3 invariant 3,
§4.1: EtherCAT-type header written at offset 14). `ETH_HEADERSIZE` of the
missing `ethercattype.h`. -/
def ETH_HEADERSIZE : Nat := 14

/-- Modelled from the spec: size of the `Nex_comt` header struct — the
2-byte EtherCAT-type/length word followed by the 10-byte datagram
sub-header (§3). The value 12 is forced by the spec's own layout: the
sub-header sits at offset 16 and the payload at offset
`ETH_HEADERSIZE + Nex_HEADERSIZE = 26` (§4.1 step 3), and the max frame
`length = 1486` gives `txbuflength = 14 + 12 + 2 + 1486 = 1514`
(§8 scenario 5). `Nex_HEADERSIZE = sizeof(Nex_comt)` of the missing
`ethercattype.h`. -/
def Nex_HEADERSIZE : Nat := 12

/-- Modelled from the spec: size of the EtherCAT-type/length word, "the
first 2-byte field after the Ethernet header" (§3 invariant 4). -/
def Nex_ELENGTHSIZE : Nat := 2

/-- Modelled from the spec: the working counter is 2 bytes (§3, glossary). -/
def Nex_WKCSIZE : Nat := 2

/-- Modelled from the spec: the EtherCAT protocol-type nibble, "bits 12-15 =
type, always 1 for datagrams" (§6), i.e. `0x1000`. -/
def Nex_ECATTYPE : Nat := 4096

/-- Modelled from the spec: the "more datagrams follow" flag is bit 15 of
the dlength word (§3), i.e. `0x8000`. -/
def Nex_DATAGRAMFOLLOWS : Nat := 32768

/-- Modelled from the spec: offset of the command byte in a received frame
whose Ethernet header has been stripped — right after the 2-byte
EtherCAT-type word (§3, §6 wire format). -/
def Nex_CMDOFFSET : Nat := Nex_ELENGTHSIZE

/-- Modelled from the spec: `ECT_REG_DCSYSTIME = 0x0910` (§6). -/
def ECT_REG_DCSYSTIME : Nat := 2320

/-- Modelled from the spec: command codes, §6 of the spec. -/
def Nex_CMD_NOP : Nat := 0

/-- Modelled from the spec: command code APRD (§6). -/
def Nex_CMD_APRD : Nat := 1

/-- Modelled from the spec: command code APWR (§6). -/
def Nex_CMD_APWR : Nat := 2

/-- Modelled from the spec: command code FPRD (§6). -/
def Nex_CMD_FPRD : Nat := 4

/-- Modelled from the spec: command code FPWR (§6). -/
def Nex_CMD_FPWR : Nat := 5

/-- Modelled from the spec: command code BRD (§6). -/
def Nex_CMD_BRD : Nat := 7

/-- Modelled from the spec: command code BWR (§6). -/
def Nex_CMD_BWR : Nat := 8

/-- Modelled from the spec: command code LRD (§6). -/
def Nex_CMD_LRD : Nat := 10

/-- Modelled from the spec: command code LWR (§6). -/
def Nex_CMD_LWR : Nat := 11

/-- Modelled from the spec: command code LRW (§6). -/
def Nex_CMD_LRW : Nat := 12

/-- Modelled from the spec: command code ARMW (§6). -/
def Nex_CMD_ARMW : Nat := 13

/-- Modelled from the spec: command code FRMW (§6). -/
def Nex_CMD_FRMW : Nat := 14

/-- `LO_WORD` of `ethercatbase.h`: low 16 bits of a 32-bit logical
address. -/
def LO_WORD (v : Nat) : Nat := v % 65536

/-- `HI_WORD` of `ethercatbase.h`: high 16 bits of a 32-bit logical
address. -/
def HI_WORD (v : Nat) : Nat := v / 65536 % 65536

/-- The commands of the `switch` in `Nexx__writedatagramdata` whose payload
is zero-filled instead of copied. -/
def isReadCmd (com : Nat) : Bool :=
  com == Nex_CMD_NOP || com == Nex_CMD_APRD || com == Nex_CMD_FPRD ||
    com == Nex_CMD_BRD || com == Nex_CMD_LRD

/-- `Nexx__writedatagramdata` of ethercatbase.c: zero-fill the payload for
the pure-read commands, copy `data` for all others; no write at all when
`length == 0`. -/
def Nexx__writedatagramdata (f : Nat → Nat) (off com length : Nat)
    (data : Nat → Nat) : Nat → Nat :=
  if 0 < length then
    if isReadCmd com then writeBytes f off (fun _ => 0) length
    else writeBytes f off data length
  else f

/-- `Nexx__setupdatagram` of ethercatbase.c. Writes, at the offsets fixed
by the `Nex_comt` struct sitting at `frame + ETH_HEADERSIZE`: the
EtherCAT-type/length word (offset 14), command (16), index (17), ADP (18),
ADO (20), dlength (22), then payload (26) and the 2-byte WKC placeholder.
The IRQ word at offsets 24..25 is not written, exactly as in the source.
Returns the new frame and the new `port->txbuflength[idx]` (the C function
itself returns the constant 0). -/
def Nexx__setupdatagram (frame : Nat → Nat) (com idx ADP ADO length : Nat)
    (data : Nat → Nat) : (Nat → Nat) × Nat :=
  let f1 := setLE16 frame ETH_HEADERSIZE (Nex_ECATTYPE + Nex_HEADERSIZE + length)
  let f2 := wr f1 16 com
  let f3 := wr f2 17 idx
  let f4 := setLE16 f3 18 ADP
  let f5 := setLE16 f4 20 ADO
  let f6 := setLE16 f5 22 length
  let f7 := Nexx__writedatagramdata f6 (ETH_HEADERSIZE + Nex_HEADERSIZE) com length data
  let f8 := wr f7 (ETH_HEADERSIZE + Nex_HEADERSIZE + length) 0
  let f9 := wr f8 (ETH_HEADERSIZE + Nex_HEADERSIZE + length + 1) 0
  (f9, ETH_HEADERSIZE + Nex_HEADERSIZE + Nex_WKCSIZE + length)

/-- `Nexx__adddatagram` of ethercatbase.c. `txbuflength` is the current
`port->txbuflength[idx]`; its read into the `uint16 prevlength` local is
the `% 65536`. The new `Nex_comt` struct is positioned at
`prevlength - Nex_ELENGTHSIZE`, so its command byte lands at `prevlength`
(its elength field overlays the previous datagram's WKC placeholder and is
never written). Returns the new frame, the new `port->txbuflength[idx]`,
and the function's return value, the offset of this datagram's payload in
the receive frame (which lacks the 14-byte Ethernet header). -/
def Nexx__adddatagram (frame : Nat → Nat) (txbuflength : Nat)
    (com idx : Nat) (more : Bool) (ADP ADO length : Nat)
    (data : Nat → Nat) : (Nat → Nat) × Nat × Nat :=
  let prevlength := txbuflength % 65536
  let f1 := setLE16 frame ETH_HEADERSIZE
    (getLE16 frame ETH_HEADERSIZE + Nex_HEADERSIZE + length)
  let f2 := setLE16 f1 22 (Nat.lor (getLE16 f1 22) Nex_DATAGRAMFOLLOWS)
  let f3 := wr f2 prevlength com
  let f4 := wr f3 (prevlength + 1) idx
  let f5 := setLE16 f4 (prevlength + 2) ADP
  let f6 := setLE16 f5 (prevlength + 4) ADO
  let f7 := setLE16 f6 (prevlength + 6)
    (if more then Nat.lor length Nex_DATAGRAMFOLLOWS else length)
  let f8 := Nexx__writedatagramdata f7
    (prevlength + Nex_HEADERSIZE - Nex_ELENGTHSIZE) com length data
  let f9 := wr f8 (prevlength + Nex_HEADERSIZE - Nex_ELENGTHSIZE + length) 0
  let f10 := wr f9 (prevlength + Nex_HEADERSIZE - Nex_ELENGTHSIZE + length + 1) 0
  (f10, prevlength + Nex_HEADERSIZE - Nex_ELENGTHSIZE + Nex_WKCSIZE + length,
    prevlength + Nex_HEADERSIZE - Nex_ELENGTHSIZE - ETH_HEADERSIZE)

/-- One datagram of a multi-datagram frame: the arguments of one
`Nexx__setupdatagram` or `Nexx__adddatagram` call (the `more` field is
ignored by `Nexx__setupdatagram`). -/
structure DgSpec where
  com : Nat
  more : Bool
  ADP : Nat
  ADO : Nat
  len : Nat
  data : Nat → Nat

/-- Bytes a list of appended datagrams adds to the frame: each
`Nexx__adddatagram` call grows `txbuflength` by
`Nex_HEADERSIZE - Nex_ELENGTHSIZE + Nex_WKCSIZE + len = 12 + len`. -/
def sumSize : List DgSpec → Nat
  | [] => 0
  | d :: r => 12 + d.len + sumSize r

/-- Sum of the payload lengths of a list of datagrams. -/
def sumLens : List DgSpec → Nat
  | [] => 0
  | d :: r => d.len + sumLens r

/-- One `Nexx__adddatagram` call on the running (frame, txbuflength)
state. -/
def buildStep (idx : Nat) (st : (Nat → Nat) × Nat) (d : DgSpec) :
    (Nat → Nat) × Nat :=
  let a := Nexx__adddatagram st.1 st.2 d.com idx d.more d.ADP d.ADO d.len d.data
  (a.1, a.2.1)

/-- A frame built the way the spec's §8 P3/P4 describe: one
`Nexx__setupdatagram` call followed by one `Nexx__adddatagram` call per
element of `rest`. Returns the final frame and `txbuflength`. -/
def buildFrame (frame0 : Nat → Nat) (idx : Nat) (first : DgSpec)
    (rest : List DgSpec) : (Nat → Nat) × Nat :=
  rest.foldl (buildStep idx)
    (Nexx__setupdatagram frame0 first.com idx first.ADP first.ADO first.len first.data)

/-- Offset of the dlength word of datagram `i` (0-based) in a frame built
by `buildFrame`: the first datagram's dlength is at 22; the sub-header of
appended datagram `i+1` starts at the `txbuflength` that preceded its
`Nexx__adddatagram` call, with dlength 6 bytes further. -/
def dgDlenOff (first : DgSpec) (rest : List DgSpec) : Nat → Nat
  | 0 => 22
  | i + 1 => 28 + first.len + sumSize (rest.take i) + 6

/-- What the transport oracle (`Nexx__srconfirm`, out of scope per §1 of
the spec) handed back: the aggregated working counter (or the negative
`NEX_NOFRAME` sentinel) and the receive buffer `port->rxbuf[idx]`, which
holds the returned frame with its 14-byte Ethernet header stripped. -/
structure SRResult where
  wkc : Int
  rx : Nat → Nat

/-- Result of one read-class primitive: the transmit frame it built, the
`txbuflength` it set, the working counter it returned, and the caller's
data buffer after the call. -/
structure PrimResult where
  txframe : Nat → Nat
  txlen : Nat
  wkc : Int
  data : Nat → Nat

/-- `Nexx__APRD` of ethercatbase.c: auto-increment read; on `wkc > 0` copy
`length` bytes from `rxbuf[idx] + Nex_HEADERSIZE` into the caller's
buffer. -/
def Nexx__APRD (idx ADP ADO length : Nat) (data : Nat → Nat)
    (txbuf0 : Nat → Nat) (sr : SRResult) : PrimResult :=
  let s := Nexx__setupdatagram txbuf0 Nex_CMD_APRD idx ADP ADO length data
  if 0 < sr.wkc then
    { txframe := s.1, txlen := s.2, wkc := sr.wkc,
      data := fun j => if j < length then rd sr.rx (Nex_HEADERSIZE + j) else data j }
  else
    { txframe := s.1, txlen := s.2, wkc := sr.wkc, data := data }

/-- `Nexx__FPRD` of ethercatbase.c: configured-address read; same read-back
rule as `Nexx__APRD`. -/
def Nexx__FPRD (idx ADP ADO length : Nat) (data : Nat → Nat)
    (txbuf0 : Nat → Nat) (sr : SRResult) : PrimResult :=
  let s := Nexx__setupdatagram txbuf0 Nex_CMD_FPRD idx ADP ADO length data
  if 0 < sr.wkc then
    { txframe := s.1, txlen := s.2, wkc := sr.wkc,
      data := fun j => if j < length then rd sr.rx (Nex_HEADERSIZE + j) else data j }
  else
    { txframe := s.1, txlen := s.2, wkc := sr.wkc, data := data }

/-- `Nexx__APRDw` of ethercatbase.c: `w = 0; Nexx__APRD(..., sizeof(w), &w);
return w`. The local `uint16 w` is the two bytes of the data buffer,
read back in host order on the little-endian host. -/
def Nexx__APRDw (idx ADP ADO : Nat) (txbuf0 : Nat → Nat) (sr : SRResult) : Nat :=
  let r := Nexx__APRD idx ADP ADO 2 (fun _ => 0) txbuf0 sr
  r.data 0 % 256 + 256 * (r.data 1 % 256)

/-- `Nexx__FPRDw` of ethercatbase.c: `w = 0; Nexx__FPRD(..., sizeof(w), &w);
return w`. -/
def Nexx__FPRDw (idx ADP ADO : Nat) (txbuf0 : Nat → Nat) (sr : SRResult) : Nat :=
  let r := Nexx__FPRD idx ADP ADO 2 (fun _ => 0) txbuf0 sr
  r.data 0 % 256 + 256 * (r.data 1 % 256)

/-- `Nexx__LRD` of ethercatbase.c: logical read; the read-back additionally
requires `rxbuf[idx][Nex_CMDOFFSET] == Nex_CMD_LRD`. -/
def Nexx__LRD (idx LogAdr length : Nat) (data : Nat → Nat)
    (txbuf0 : Nat → Nat) (sr : SRResult) : PrimResult :=
  let s := Nexx__setupdatagram txbuf0 Nex_CMD_LRD idx (LO_WORD LogAdr)
    (HI_WORD LogAdr) length data
  if 0 < sr.wkc ∧ rd sr.rx Nex_CMDOFFSET = Nex_CMD_LRD then
    { txframe := s.1, txlen := s.2, wkc := sr.wkc,
      data := fun j => if j < length then rd sr.rx (Nex_HEADERSIZE + j) else data j }
  else
    { txframe := s.1, txlen := s.2, wkc := sr.wkc, data := data }

/-- `Nexx__LRW` of ethercatbase.c: logical read-write; the read-back
requires `rxbuf[idx][Nex_CMDOFFSET] == Nex_CMD_LRW`. -/
def Nexx__LRW (idx LogAdr length : Nat) (data : Nat → Nat)
    (txbuf0 : Nat → Nat) (sr : SRResult) : PrimResult :=
  let s := Nexx__setupdatagram txbuf0 Nex_CMD_LRW idx (LO_WORD LogAdr)
    (HI_WORD LogAdr) length data
  if 0 < sr.wkc ∧ rd sr.rx Nex_CMDOFFSET = Nex_CMD_LRW then
    { txframe := s.1, txlen := s.2, wkc := sr.wkc,
      data := fun j => if j < length then rd sr.rx (Nex_HEADERSIZE + j) else data j }
  else
    { txframe := s.1, txlen := s.2, wkc := sr.wkc, data := data }

/-- The little-endian bytes `htoell(*DCtime)` of the 64-bit DC time: byte
`j` of the two's-complement `uint64` image of the `int64` value. -/
def htoellBytes (t : Int) : Nat → Nat :=
  fun j => (t % 18446744073709551616).toNat / 256 ^ j % 256

/-- Read a 64-bit little-endian value from a buffer. -/
def readLE64 (f : Nat → Nat) (o : Nat) : Nat :=
  rd f o + 256 * rd f (o + 1) + 65536 * rd f (o + 2) +
    16777216 * rd f (o + 3) + 4294967296 * rd f (o + 4) +
    1099511627776 * rd f (o + 5) + 281474976710656 * rd f (o + 6) +
    72057594037927936 * rd f (o + 7)

/-- `etohll` followed by the store into the `int64 *DCtime`: reinterpret a
`uint64` as a two's-complement `int64`. -/
def etohllInt (u : Nat) : Int :=
  if u < 9223372036854775808 then (u : Int)
  else (u : Int) - 18446744073709551616

/-- Result of `Nexx__LRWDC`: the returned working counter, the caller's
data buffer and `*DCtime` after the call, and (for the frame-layout
claims) the transmit frame, its `txbuflength`, and the `uint16 DCtO`
receive-frame offset returned by the inner `Nexx__adddatagram`. -/
structure LRWDCResult where
  wkc : Int
  data : Nat → Nat
  DCtime : Int
  txframe : Nat → Nat
  txlen : Nat
  DCtO : Nat

/-- `Nexx__LRWDC` of ethercatbase.c. One LRW datagram via
`Nexx__setupdatagram`, one FRMW datagram at the DC system-time register
via `Nexx__adddatagram` with `more = FALSE`, carrying `htoell(*DCtime)`.
The payload length the source passes is `sizeof(DCtime)`, the size of a
pointer; it is modelled as 8, its value on the 64-bit host (the spec's §9
notes the intent is 8 bytes). On `wkc > 0` with a matching LRW command
byte: copy the payload back, overwrite the low two bytes of the `int wkc`
with the LRW datagram's own WKC (`memcpy(&wkc, ..., Nex_WKCSIZE)` on the
little-endian host — total for `0 ≤ wkc`: `wkc - wkc % 65536 + wkcLRW`),
and store the 8 bytes at `DCtO` into `*DCtime`. -/
def Nexx__LRWDC (idx LogAdr length : Nat) (data : Nat → Nat) (DCrs : Nat)
    (DCtime : Int) (txbuf0 : Nat → Nat) (sr : SRResult) : LRWDCResult :=
  let s := Nexx__setupdatagram txbuf0 Nex_CMD_LRW idx (LO_WORD LogAdr)
    (HI_WORD LogAdr) length data
  let DCtE := htoellBytes DCtime
  let a := Nexx__adddatagram s.1 s.2 Nex_CMD_FRMW idx false DCrs
    ECT_REG_DCSYSTIME 8 DCtE
  let DCtO := a.2.2 % 65536
  { wkc := if 0 < sr.wkc ∧ rd sr.rx Nex_CMDOFFSET = Nex_CMD_LRW then
      sr.wkc - sr.wkc % 65536 +
        ((rd sr.rx (Nex_HEADERSIZE + length) +
          256 * rd sr.rx (Nex_HEADERSIZE + length + 1) : Nat) : Int)
      else sr.wkc,
    data := if 0 < sr.wkc ∧ rd sr.rx Nex_CMDOFFSET = Nex_CMD_LRW then
      fun j => if j < length then rd sr.rx (Nex_HEADERSIZE + j) else data j
      else data,
    DCtime := if 0 < sr.wkc ∧ rd sr.rx Nex_CMDOFFSET = Nex_CMD_LRW then
      etohllInt (readLE64 sr.rx DCtO)
      else DCtime,
    txframe := a.1, txlen := a.2.1, DCtO := DCtO }

/-- The all-zero byte buffer: the preallocated transmit buffer after port
open (the transport presets only the Ethernet header, bytes 0..13, which
this layer never reads), and the convenient all-zero payload. -/
def zeroBuf : Nat → Nat := fun _ => 0

/-- A 2-byte payload `{0x04, 0x00}` (the spec's §8 scenario 3). -/
def data40 : Nat → Nat := fun j => if j = 0 then 4 else 0

/-- A concrete receive buffer for exercising the LRWDC read-back path:
command byte LRW at offset 2, payload bytes `{9, 0}` at offsets 12..13
(a 2-byte LRW payload), and the LRW datagram's WKC `{5, 0}` at offsets
14..15. -/
def rxLRW : Nat → Nat := fun i =>
  if i = 2 then 12 else
  if i = 12 then 9 else
  if i = 14 then 5 else 0

/-- A concrete receive buffer whose command byte (offset 2) is BRD, not a
logical command: used to exercise the command-mismatch paths. -/
def rxBad : Nat → Nat := fun i => if i = 2 then 7 else 99

theorem rd_wr (f : Nat → Nat) (o v i : Nat) :
    rd (wr f o v) i = if i = o then v % 256 else rd f i := by
  unfold rd wr
  split <;> rfl

theorem rd_writeBytes (f src : Nat → Nat) (o n i : Nat) :
    rd (writeBytes f o src n) i =
      if o ≤ i ∧ i < o + n then src (i - o) % 256 else rd f i := by
  induction n with
  | zero =>
    show rd f i = _
    rw [if_neg (by omega)]
  | succ n ih =>
    show rd (wr (writeBytes f o src n) (o + n) (src n)) i = _
    rw [rd_wr, ih]
    by_cases h : i = o + n
    · subst h
      rw [if_pos rfl, if_pos (by omega)]
      have h2 : o + n - o = n := by omega
      rw [h2]
    · rw [if_neg h]
      split_ifs <;> first | rfl | omega

theorem rd_writedatagramdata (f data : Nat → Nat) (off com length i : Nat) :
    rd (Nexx__writedatagramdata f off com length data) i =
      if off ≤ i ∧ i < off + length then
        (if isReadCmd com then 0 else data (i - off) % 256)
      else rd f i := by
  unfold Nexx__writedatagramdata
  by_cases h1 : 0 < length
  · rw [if_pos h1]
    by_cases h2 : isReadCmd com
    · rw [if_pos h2, rd_writeBytes]
      by_cases hr : off ≤ i ∧ i < off + length
      · rw [if_pos hr, if_pos hr, if_pos h2]
      · rw [if_neg hr, if_neg hr]
    · rw [if_neg h2, rd_writeBytes]
      by_cases hr : off ≤ i ∧ i < off + length
      · rw [if_pos hr, if_pos hr, if_neg h2]
      · rw [if_neg hr, if_neg hr]
  · rw [if_neg h1, if_neg (by omega)]

theorem le16_split (v : Nat) : v % 256 + 256 * (v / 256 % 256) = v % 65536 := by
  omega

theorem getLE16_lt (f : Nat → Nat) (o : Nat) : getLE16 f o < 65536 := by
  unfold getLE16 rd
  omega

theorem testBit15_lor_mod (x : Nat) :
    ((Nat.lor x 32768) % 65536).testBit 15 = true := by
  have h1 : (65536 : Nat) = 2 ^ 16 := by norm_num
  have h2 : (32768 : Nat) = 2 ^ 15 := by norm_num
  rw [h1, Nat.testBit_mod_two_pow]
  have h3 : Nat.lor x 32768 = x ||| 32768 := rfl
  rw [h3, Nat.testBit_or, h2, Nat.testBit_two_pow_self]
  simp

theorem testBit15_of_lt (x : Nat) (h : x < 32768) : x.testBit 15 = false := by
  exact Nat.testBit_lt_two_pow (by norm_num at h ⊢; omega)


theorem rd_wr_ne (f : Nat → Nat) (o v i : Nat) (h : i ≠ o) :
    rd (wr f o v) i = rd f i := by
  rw [rd_wr, if_neg h]

theorem rd_wr_eq (f : Nat → Nat) (o v : Nat) :
    rd (wr f o v) o = v % 256 := by
  rw [rd_wr, if_pos rfl]

theorem rd_wdd_lt (f data : Nat → Nat) (off com length i : Nat) (h : i < off) :
    rd (Nexx__writedatagramdata f off com length data) i = rd f i := by
  rw [rd_writedatagramdata, if_neg (by omega)]

theorem rd_wdd_ge (f data : Nat → Nat) (off com length i : Nat)
    (h : off + length ≤ i) :
    rd (Nexx__writedatagramdata f off com length data) i = rd f i := by
  rw [rd_writedatagramdata, if_neg (by omega)]

theorem rd_wdd_in (f data : Nat → Nat) (off com length i : Nat)
    (h1 : off ≤ i) (h2 : i < off + length) :
    rd (Nexx__writedatagramdata f off com length data) i =
      if isReadCmd com then 0 else data (i - off) % 256 := by
  rw [rd_writedatagramdata, if_pos (by omega)]

theorem getLE16_wr_ne (f : Nat → Nat) (o v p : Nat) (h1 : p ≠ o)
    (h2 : p + 1 ≠ o) :
    getLE16 (wr f o v) p = getLE16 f p := by
  unfold getLE16
  rw [rd_wr_ne _ _ _ _ h1, rd_wr_ne _ _ _ _ h2]

theorem setup_txlen (frame data : Nat → Nat) (com idx ADP ADO len : Nat) :
    (Nexx__setupdatagram frame com idx ADP ADO len data).2 = 28 + len := by
  simp only [Nexx__setupdatagram, ETH_HEADERSIZE, Nex_HEADERSIZE, Nex_WKCSIZE]

theorem setup_rd14 (frame data : Nat → Nat) (com idx ADP ADO len : Nat) :
    rd (Nexx__setupdatagram frame com idx ADP ADO len data).1 14 =
      (4096 + 12 + len) % 256 := by
  simp only [Nexx__setupdatagram, setLE16, ETH_HEADERSIZE, Nex_HEADERSIZE,
    Nex_WKCSIZE, Nex_ECATTYPE]
  rw [rd_wr_ne _ _ _ _ (by omega), rd_wr_ne _ _ _ _ (by omega),
    rd_wdd_lt _ _ _ _ _ _ (by omega), rd_wr_ne _ _ _ _ (by omega),
    rd_wr_ne _ _ _ _ (by omega), rd_wr_ne _ _ _ _ (by omega),
    rd_wr_ne _ _ _ _ (by omega), rd_wr_ne _ _ _ _ (by omega),
    rd_wr_ne _ _ _ _ (by omega), rd_wr_ne _ _ _ _ (by omega),
    rd_wr_ne _ _ _ _ (by omega), rd_wr_ne _ _ _ _ (by omega), rd_wr_eq]

theorem setup_rd15 (frame data : Nat → Nat) (com idx ADP ADO len : Nat) :
    rd (Nexx__setupdatagram frame com idx ADP ADO len data).1 15 =
      (4096 + 12 + len) / 256 % 256 := by
  simp only [Nexx__setupdatagram, setLE16, ETH_HEADERSIZE, Nex_HEADERSIZE,
    Nex_WKCSIZE, Nex_ECATTYPE]
  rw [rd_wr_ne _ _ _ _ (by omega), rd_wr_ne _ _ _ _ (by omega),
    rd_wdd_lt _ _ _ _ _ _ (by omega), rd_wr_ne _ _ _ _ (by omega),
    rd_wr_ne _ _ _ _ (by omega), rd_wr_ne _ _ _ _ (by omega),
    rd_wr_ne _ _ _ _ (by omega), rd_wr_ne _ _ _ _ (by omega),
    rd_wr_ne _ _ _ _ (by omega), rd_wr_ne _ _ _ _ (by omega),
    rd_wr_ne _ _ _ _ (by omega), rd_wr_eq]

theorem setup_elength (frame data : Nat → Nat) (com idx ADP ADO len : Nat) :
    getLE16 (Nexx__setupdatagram frame com idx ADP ADO len data).1 14 =
      (4108 + len) % 65536 := by
  unfold getLE16
  rw [setup_rd14, setup_rd15]
  omega

theorem setup_cmd (frame data : Nat → Nat) (com idx ADP ADO len : Nat) :
    rd (Nexx__setupdatagram frame com idx ADP ADO len data).1 16 = com % 256 := by
  simp only [Nexx__setupdatagram, setLE16, ETH_HEADERSIZE, Nex_HEADERSIZE,
    Nex_WKCSIZE, Nex_ECATTYPE]
  rw [rd_wr_ne _ _ _ _ (by omega), rd_wr_ne _ _ _ _ (by omega),
    rd_wdd_lt _ _ _ _ _ _ (by omega), rd_wr_ne _ _ _ _ (by omega),
    rd_wr_ne _ _ _ _ (by omega), rd_wr_ne _ _ _ _ (by omega),
    rd_wr_ne _ _ _ _ (by omega), rd_wr_ne _ _ _ _ (by omega),
    rd_wr_ne _ _ _ _ (by omega), rd_wr_ne _ _ _ _ (by omega), rd_wr_eq]

theorem setup_idx (frame data : Nat → Nat) (com idx ADP ADO len : Nat) :
    rd (Nexx__setupdatagram frame com idx ADP ADO len data).1 17 = idx % 256 := by
  simp only [Nexx__setupdatagram, setLE16, ETH_HEADERSIZE, Nex_HEADERSIZE,
    Nex_WKCSIZE, Nex_ECATTYPE]
  rw [rd_wr_ne _ _ _ _ (by omega), rd_wr_ne _ _ _ _ (by omega),
    rd_wdd_lt _ _ _ _ _ _ (by omega), rd_wr_ne _ _ _ _ (by omega),
    rd_wr_ne _ _ _ _ (by omega), rd_wr_ne _ _ _ _ (by omega),
    rd_wr_ne _ _ _ _ (by omega), rd_wr_ne _ _ _ _ (by omega),
    rd_wr_ne _ _ _ _ (by omega), rd_wr_eq]

theorem setup_adp_lo (frame data : Nat → Nat) (com idx ADP ADO len : Nat) :
    rd (Nexx__setupdatagram frame com idx ADP ADO len data).1 18 = ADP % 256 := by
  simp only [Nexx__setupdatagram, setLE16, ETH_HEADERSIZE, Nex_HEADERSIZE,
    Nex_WKCSIZE, Nex_ECATTYPE]
  rw [rd_wr_ne _ _ _ _ (by omega), rd_wr_ne _ _ _ _ (by omega),
    rd_wdd_lt _ _ _ _ _ _ (by omega), rd_wr_ne _ _ _ _ (by omega),
    rd_wr_ne _ _ _ _ (by omega), rd_wr_ne _ _ _ _ (by omega),
    rd_wr_ne _ _ _ _ (by omega), rd_wr_ne _ _ _ _ (by omega), rd_wr_eq]

theorem setup_adp_hi (frame data : Nat → Nat) (com idx ADP ADO len : Nat) :
    rd (Nexx__setupdatagram frame com idx ADP ADO len data).1 19 =
      ADP / 256 % 256 := by
  simp only [Nexx__setupdatagram, setLE16, ETH_HEADERSIZE, Nex_HEADERSIZE,
    Nex_WKCSIZE, Nex_ECATTYPE]
  rw [rd_wr_ne _ _ _ _ (by omega), rd_wr_ne _ _ _ _ (by omega),
    rd_wdd_lt _ _ _ _ _ _ (by omega), rd_wr_ne _ _ _ _ (by omega),
    rd_wr_ne _ _ _ _ (by omega), rd_wr_ne _ _ _ _ (by omega),
    rd_wr_ne _ _ _ _ (by omega), rd_wr_eq]

theorem setup_ado_lo (frame data : Nat → Nat) (com idx ADP ADO len : Nat) :
    rd (Nexx__setupdatagram frame com idx ADP ADO len data).1 20 = ADO % 256 := by
  simp only [Nexx__setupdatagram, setLE16, ETH_HEADERSIZE, Nex_HEADERSIZE,
    Nex_WKCSIZE, Nex_ECATTYPE]
  rw [rd_wr_ne _ _ _ _ (by omega), rd_wr_ne _ _ _ _ (by omega),
    rd_wdd_lt _ _ _ _ _ _ (by omega), rd_wr_ne _ _ _ _ (by omega),
    rd_wr_ne _ _ _ _ (by omega), rd_wr_ne _ _ _ _ (by omega), rd_wr_eq]

theorem setup_ado_hi (frame data : Nat → Nat) (com idx ADP ADO len : Nat) :
    rd (Nexx__setupdatagram frame com idx ADP ADO len data).1 21 =
      ADO / 256 % 256 := by
  simp only [Nexx__setupdatagram, setLE16, ETH_HEADERSIZE, Nex_HEADERSIZE,
    Nex_WKCSIZE, Nex_ECATTYPE]
  rw [rd_wr_ne _ _ _ _ (by omega), rd_wr_ne _ _ _ _ (by omega),
    rd_wdd_lt _ _ _ _ _ _ (by omega), rd_wr_ne _ _ _ _ (by omega),
    rd_wr_ne _ _ _ _ (by omega), rd_wr_eq]

theorem setup_dlen_lo (frame data : Nat → Nat) (com idx ADP ADO len : Nat) :
    rd (Nexx__setupdatagram frame com idx ADP ADO len data).1 22 = len % 256 := by
  simp only [Nexx__setupdatagram, setLE16, ETH_HEADERSIZE, Nex_HEADERSIZE,
    Nex_WKCSIZE, Nex_ECATTYPE]
  rw [rd_wr_ne _ _ _ _ (by omega), rd_wr_ne _ _ _ _ (by omega),
    rd_wdd_lt _ _ _ _ _ _ (by omega), rd_wr_ne _ _ _ _ (by omega), rd_wr_eq]

theorem setup_dlen_hi (frame data : Nat → Nat) (com idx ADP ADO len : Nat) :
    rd (Nexx__setupdatagram frame com idx ADP ADO len data).1 23 =
      len / 256 % 256 := by
  simp only [Nexx__setupdatagram, setLE16, ETH_HEADERSIZE, Nex_HEADERSIZE,
    Nex_WKCSIZE, Nex_ECATTYPE]
  rw [rd_wr_ne _ _ _ _ (by omega), rd_wr_ne _ _ _ _ (by omega),
    rd_wdd_lt _ _ _ _ _ _ (by omega), rd_wr_eq]

theorem setup_dlen (frame data : Nat → Nat) (com idx ADP ADO len : Nat) :
    getLE16 (Nexx__setupdatagram frame com idx ADP ADO len data).1 22 =
      len % 65536 := by
  unfold getLE16
  rw [setup_dlen_lo, setup_dlen_hi]
  omega

theorem setup_irq_lo (frame data : Nat → Nat) (com idx ADP ADO len : Nat) :
    rd (Nexx__setupdatagram frame com idx ADP ADO len data).1 24 =
      rd frame 24 := by
  simp only [Nexx__setupdatagram, setLE16, ETH_HEADERSIZE, Nex_HEADERSIZE,
    Nex_WKCSIZE, Nex_ECATTYPE]
  rw [rd_wr_ne _ _ _ _ (by omega), rd_wr_ne _ _ _ _ (by omega),
    rd_wdd_lt _ _ _ _ _ _ (by omega), rd_wr_ne _ _ _ _ (by omega),
    rd_wr_ne _ _ _ _ (by omega), rd_wr_ne _ _ _ _ (by omega),
    rd_wr_ne _ _ _ _ (by omega), rd_wr_ne _ _ _ _ (by omega),
    rd_wr_ne _ _ _ _ (by omega), rd_wr_ne _ _ _ _ (by omega),
    rd_wr_ne _ _ _ _ (by omega), rd_wr_ne _ _ _ _ (by omega),
    rd_wr_ne _ _ _ _ (by omega)]

theorem setup_irq_hi (frame data : Nat → Nat) (com idx ADP ADO len : Nat) :
    rd (Nexx__setupdatagram frame com idx ADP ADO len data).1 25 =
      rd frame 25 := by
  simp only [Nexx__setupdatagram, setLE16, ETH_HEADERSIZE, Nex_HEADERSIZE,
    Nex_WKCSIZE, Nex_ECATTYPE]
  rw [rd_wr_ne _ _ _ _ (by omega), rd_wr_ne _ _ _ _ (by omega),
    rd_wdd_lt _ _ _ _ _ _ (by omega), rd_wr_ne _ _ _ _ (by omega),
    rd_wr_ne _ _ _ _ (by omega), rd_wr_ne _ _ _ _ (by omega),
    rd_wr_ne _ _ _ _ (by omega), rd_wr_ne _ _ _ _ (by omega),
    rd_wr_ne _ _ _ _ (by omega), rd_wr_ne _ _ _ _ (by omega),
    rd_wr_ne _ _ _ _ (by omega), rd_wr_ne _ _ _ _ (by omega),
    rd_wr_ne _ _ _ _ (by omega)]

theorem setup_payload (frame data : Nat → Nat) (com idx ADP ADO len j : Nat)
    (hj : j < len) :
    rd (Nexx__setupdatagram frame com idx ADP ADO len data).1 (26 + j) =
      if isReadCmd com then 0 else data j % 256 := by
  simp only [Nexx__setupdatagram, setLE16, ETH_HEADERSIZE, Nex_HEADERSIZE,
    Nex_WKCSIZE, Nex_ECATTYPE]
  rw [rd_wr_ne _ _ _ _ (by omega), rd_wr_ne _ _ _ _ (by omega),
    rd_wdd_in _ _ _ _ _ _ (by omega) (by omega)]
  have e : 26 + j - (14 + 12) = j := by omega
  rw [e]

theorem setup_wkc_lo (frame data : Nat → Nat) (com idx ADP ADO len : Nat) :
    rd (Nexx__setupdatagram frame com idx ADP ADO len data).1 (26 + len) = 0 := by
  simp only [Nexx__setupdatagram, setLE16, ETH_HEADERSIZE, Nex_HEADERSIZE,
    Nex_WKCSIZE, Nex_ECATTYPE]
  rw [rd_wr_ne _ _ _ _ (by omega)]
  have e : (26 : Nat) + len = 14 + 12 + len := by omega
  rw [e, rd_wr_eq]

theorem setup_wkc_hi (frame data : Nat → Nat) (com idx ADP ADO len : Nat) :
    rd (Nexx__setupdatagram frame com idx ADP ADO len data).1 (27 + len) = 0 := by
  simp only [Nexx__setupdatagram, setLE16, ETH_HEADERSIZE, Nex_HEADERSIZE,
    Nex_WKCSIZE, Nex_ECATTYPE]
  have e : (27 : Nat) + len = 14 + 12 + len + 1 := by omega
  rw [e, rd_wr_eq]

theorem add_txlen (frame data : Nat → Nat) (t com idx ADP ADO length : Nat)
    (more : Bool) (hlt : t < 65536) :
    (Nexx__adddatagram frame t com idx more ADP ADO length data).2.1 =
      t + 12 + length := by
  simp only [Nexx__adddatagram, ETH_HEADERSIZE, Nex_HEADERSIZE,
    Nex_ELENGTHSIZE, Nex_WKCSIZE]
  rw [Nat.mod_eq_of_lt hlt]
  omega

theorem add_ret (frame data : Nat → Nat) (t com idx ADP ADO length : Nat)
    (more : Bool) (h4 : 4 ≤ t) (hlt : t < 65536) :
    (Nexx__adddatagram frame t com idx more ADP ADO length data).2.2 =
      t - 4 := by
  simp only [Nexx__adddatagram, ETH_HEADERSIZE, Nex_HEADERSIZE,
    Nex_ELENGTHSIZE, Nex_WKCSIZE]
  rw [Nat.mod_eq_of_lt hlt]
  omega

theorem add_rd14 (frame data : Nat → Nat) (t com idx ADP ADO length : Nat)
    (more : Bool) (h28 : 28 ≤ t) (hlt : t < 65536) :
    rd (Nexx__adddatagram frame t com idx more ADP ADO length data).1 14 =
      (getLE16 frame 14 + 12 + length) % 256 := by
  simp only [Nexx__adddatagram, setLE16, ETH_HEADERSIZE, Nex_HEADERSIZE,
    Nex_ELENGTHSIZE, Nex_WKCSIZE, Nex_DATAGRAMFOLLOWS]
  rw [Nat.mod_eq_of_lt hlt]
  rw [rd_wr_ne _ _ _ _ (by omega), rd_wr_ne _ _ _ _ (by omega),
    rd_wdd_lt _ _ _ _ _ _ (by omega), rd_wr_ne _ _ _ _ (by omega),
    rd_wr_ne _ _ _ _ (by omega), rd_wr_ne _ _ _ _ (by omega),
    rd_wr_ne _ _ _ _ (by omega), rd_wr_ne _ _ _ _ (by omega),
    rd_wr_ne _ _ _ _ (by omega), rd_wr_ne _ _ _ _ (by omega),
    rd_wr_ne _ _ _ _ (by omega), rd_wr_ne _ _ _ _ (by omega),
    rd_wr_ne _ _ _ _ (by omega), rd_wr_ne _ _ _ _ (by omega), rd_wr_eq]

theorem add_rd15 (frame data : Nat → Nat) (t com idx ADP ADO length : Nat)
    (more : Bool) (h28 : 28 ≤ t) (hlt : t < 65536) :
    rd (Nexx__adddatagram frame t com idx more ADP ADO length data).1 15 =
      (getLE16 frame 14 + 12 + length) / 256 % 256 := by
  simp only [Nexx__adddatagram, setLE16, ETH_HEADERSIZE, Nex_HEADERSIZE,
    Nex_ELENGTHSIZE, Nex_WKCSIZE, Nex_DATAGRAMFOLLOWS]
  rw [Nat.mod_eq_of_lt hlt]
  rw [rd_wr_ne _ _ _ _ (by omega), rd_wr_ne _ _ _ _ (by omega),
    rd_wdd_lt _ _ _ _ _ _ (by omega), rd_wr_ne _ _ _ _ (by omega),
    rd_wr_ne _ _ _ _ (by omega), rd_wr_ne _ _ _ _ (by omega),
    rd_wr_ne _ _ _ _ (by omega), rd_wr_ne _ _ _ _ (by omega),
    rd_wr_ne _ _ _ _ (by omega), rd_wr_ne _ _ _ _ (by omega),
    rd_wr_ne _ _ _ _ (by omega), rd_wr_ne _ _ _ _ (by omega),
    rd_wr_ne _ _ _ _ (by omega), rd_wr_eq]

theorem add_elength (frame data : Nat → Nat) (t com idx ADP ADO length : Nat)
    (more : Bool) (h28 : 28 ≤ t) (hlt : t < 65536) :
    getLE16 (Nexx__adddatagram frame t com idx more ADP ADO length data).1 14 =
      (getLE16 frame 14 + 12 + length) % 65536 := by
  have hlo := add_rd14 frame data t com idx ADP ADO length more h28 hlt
  have hhi := add_rd15 frame data t com idx ADP ADO length more h28 hlt
  unfold getLE16 at hlo hhi ⊢
  rw [hlo, hhi]
  omega

theorem add_rd22 (frame data : Nat → Nat) (t com idx ADP ADO length : Nat)
    (more : Bool) (h28 : 28 ≤ t) (hlt : t < 65536) :
    rd (Nexx__adddatagram frame t com idx more ADP ADO length data).1 22 =
      Nat.lor (getLE16 frame 22) 32768 % 256 := by
  simp only [Nexx__adddatagram, setLE16, ETH_HEADERSIZE, Nex_HEADERSIZE,
    Nex_ELENGTHSIZE, Nex_WKCSIZE, Nex_DATAGRAMFOLLOWS]
  rw [Nat.mod_eq_of_lt hlt]
  rw [rd_wr_ne _ _ _ _ (by omega), rd_wr_ne _ _ _ _ (by omega),
    rd_wdd_lt _ _ _ _ _ _ (by omega), rd_wr_ne _ _ _ _ (by omega),
    rd_wr_ne _ _ _ _ (by omega), rd_wr_ne _ _ _ _ (by omega),
    rd_wr_ne _ _ _ _ (by omega), rd_wr_ne _ _ _ _ (by omega),
    rd_wr_ne _ _ _ _ (by omega), rd_wr_ne _ _ _ _ (by omega),
    rd_wr_ne _ _ _ _ (by omega), rd_wr_ne _ _ _ _ (by omega), rd_wr_eq,
    getLE16_wr_ne _ _ _ _ (by omega) (by omega),
    getLE16_wr_ne _ _ _ _ (by omega) (by omega)]

theorem add_rd23 (frame data : Nat → Nat) (t com idx ADP ADO length : Nat)
    (more : Bool) (h28 : 28 ≤ t) (hlt : t < 65536) :
    rd (Nexx__adddatagram frame t com idx more ADP ADO length data).1 23 =
      Nat.lor (getLE16 frame 22) 32768 / 256 % 256 := by
  simp only [Nexx__adddatagram, setLE16, ETH_HEADERSIZE, Nex_HEADERSIZE,
    Nex_ELENGTHSIZE, Nex_WKCSIZE, Nex_DATAGRAMFOLLOWS]
  rw [Nat.mod_eq_of_lt hlt]
  rw [rd_wr_ne _ _ _ _ (by omega), rd_wr_ne _ _ _ _ (by omega),
    rd_wdd_lt _ _ _ _ _ _ (by omega), rd_wr_ne _ _ _ _ (by omega),
    rd_wr_ne _ _ _ _ (by omega), rd_wr_ne _ _ _ _ (by omega),
    rd_wr_ne _ _ _ _ (by omega), rd_wr_ne _ _ _ _ (by omega),
    rd_wr_ne _ _ _ _ (by omega), rd_wr_ne _ _ _ _ (by omega),
    rd_wr_ne _ _ _ _ (by omega), rd_wr_eq,
    getLE16_wr_ne _ _ _ _ (by omega) (by omega),
    getLE16_wr_ne _ _ _ _ (by omega) (by omega)]

theorem add_dlen0 (frame data : Nat → Nat) (t com idx ADP ADO length : Nat)
    (more : Bool) (h28 : 28 ≤ t) (hlt : t < 65536) :
    getLE16 (Nexx__adddatagram frame t com idx more ADP ADO length data).1 22 =
      Nat.lor (getLE16 frame 22) 32768 % 65536 := by
  have hlo := add_rd22 frame data t com idx ADP ADO length more h28 hlt
  have hhi := add_rd23 frame data t com idx ADP ADO length more h28 hlt
  unfold getLE16 at hlo hhi ⊢
  rw [hlo, hhi]
  omega

theorem add_cmd (frame data : Nat → Nat) (t com idx ADP ADO length : Nat)
    (more : Bool) (h28 : 28 ≤ t) (hlt : t < 65536) :
    rd (Nexx__adddatagram frame t com idx more ADP ADO length data).1 t =
      com % 256 := by
  simp only [Nexx__adddatagram, setLE16, ETH_HEADERSIZE, Nex_HEADERSIZE,
    Nex_ELENGTHSIZE, Nex_WKCSIZE, Nex_DATAGRAMFOLLOWS]
  rw [Nat.mod_eq_of_lt hlt]
  rw [rd_wr_ne _ _ _ _ (by omega), rd_wr_ne _ _ _ _ (by omega),
    rd_wdd_lt _ _ _ _ _ _ (by omega), rd_wr_ne _ _ _ _ (by omega),
    rd_wr_ne _ _ _ _ (by omega), rd_wr_ne _ _ _ _ (by omega),
    rd_wr_ne _ _ _ _ (by omega), rd_wr_ne _ _ _ _ (by omega),
    rd_wr_ne _ _ _ _ (by omega), rd_wr_ne _ _ _ _ (by omega), rd_wr_eq]

theorem add_idx (frame data : Nat → Nat) (t com idx ADP ADO length : Nat)
    (more : Bool) (h28 : 28 ≤ t) (hlt : t < 65536) :
    rd (Nexx__adddatagram frame t com idx more ADP ADO length data).1 (t + 1) =
      idx % 256 := by
  simp only [Nexx__adddatagram, setLE16, ETH_HEADERSIZE, Nex_HEADERSIZE,
    Nex_ELENGTHSIZE, Nex_WKCSIZE, Nex_DATAGRAMFOLLOWS]
  rw [Nat.mod_eq_of_lt hlt]
  rw [rd_wr_ne _ _ _ _ (by omega), rd_wr_ne _ _ _ _ (by omega),
    rd_wdd_lt _ _ _ _ _ _ (by omega), rd_wr_ne _ _ _ _ (by omega),
    rd_wr_ne _ _ _ _ (by omega), rd_wr_ne _ _ _ _ (by omega),
    rd_wr_ne _ _ _ _ (by omega), rd_wr_ne _ _ _ _ (by omega),
    rd_wr_ne _ _ _ _ (by omega), rd_wr_eq]

theorem add_adp_lo (frame data : Nat → Nat) (t com idx ADP ADO length : Nat)
    (more : Bool) (h28 : 28 ≤ t) (hlt : t < 65536) :
    rd (Nexx__adddatagram frame t com idx more ADP ADO length data).1 (t + 2) =
      ADP % 256 := by
  simp only [Nexx__adddatagram, setLE16, ETH_HEADERSIZE, Nex_HEADERSIZE,
    Nex_ELENGTHSIZE, Nex_WKCSIZE, Nex_DATAGRAMFOLLOWS]
  rw [Nat.mod_eq_of_lt hlt]
  rw [rd_wr_ne _ _ _ _ (by omega), rd_wr_ne _ _ _ _ (by omega),
    rd_wdd_lt _ _ _ _ _ _ (by omega), rd_wr_ne _ _ _ _ (by omega),
    rd_wr_ne _ _ _ _ (by omega), rd_wr_ne _ _ _ _ (by omega),
    rd_wr_ne _ _ _ _ (by omega), rd_wr_ne _ _ _ _ (by omega), rd_wr_eq]

theorem add_adp_hi (frame data : Nat → Nat) (t com idx ADP ADO length : Nat)
    (more : Bool) (h28 : 28 ≤ t) (hlt : t < 65536) :
    rd (Nexx__adddatagram frame t com idx more ADP ADO length data).1 (t + 2 + 1) =
      ADP / 256 % 256 := by
  simp only [Nexx__adddatagram, setLE16, ETH_HEADERSIZE, Nex_HEADERSIZE,
    Nex_ELENGTHSIZE, Nex_WKCSIZE, Nex_DATAGRAMFOLLOWS]
  rw [Nat.mod_eq_of_lt hlt]
  rw [rd_wr_ne _ _ _ _ (by omega), rd_wr_ne _ _ _ _ (by omega),
    rd_wdd_lt _ _ _ _ _ _ (by omega), rd_wr_ne _ _ _ _ (by omega),
    rd_wr_ne _ _ _ _ (by omega), rd_wr_ne _ _ _ _ (by omega),
    rd_wr_ne _ _ _ _ (by omega), rd_wr_eq]

theorem add_ado_lo (frame data : Nat → Nat) (t com idx ADP ADO length : Nat)
    (more : Bool) (h28 : 28 ≤ t) (hlt : t < 65536) :
    rd (Nexx__adddatagram frame t com idx more ADP ADO length data).1 (t + 4) =
      ADO % 256 := by
  simp only [Nexx__adddatagram, setLE16, ETH_HEADERSIZE, Nex_HEADERSIZE,
    Nex_ELENGTHSIZE, Nex_WKCSIZE, Nex_DATAGRAMFOLLOWS]
  rw [Nat.mod_eq_of_lt hlt]
  rw [rd_wr_ne _ _ _ _ (by omega), rd_wr_ne _ _ _ _ (by omega),
    rd_wdd_lt _ _ _ _ _ _ (by omega), rd_wr_ne _ _ _ _ (by omega),
    rd_wr_ne _ _ _ _ (by omega), rd_wr_ne _ _ _ _ (by omega), rd_wr_eq]

theorem add_ado_hi (frame data : Nat → Nat) (t com idx ADP ADO length : Nat)
    (more : Bool) (h28 : 28 ≤ t) (hlt : t < 65536) :
    rd (Nexx__adddatagram frame t com idx more ADP ADO length data).1 (t + 4 + 1) =
      ADO / 256 % 256 := by
  simp only [Nexx__adddatagram, setLE16, ETH_HEADERSIZE, Nex_HEADERSIZE,
    Nex_ELENGTHSIZE, Nex_WKCSIZE, Nex_DATAGRAMFOLLOWS]
  rw [Nat.mod_eq_of_lt hlt]
  rw [rd_wr_ne _ _ _ _ (by omega), rd_wr_ne _ _ _ _ (by omega),
    rd_wdd_lt _ _ _ _ _ _ (by omega), rd_wr_ne _ _ _ _ (by omega),
    rd_wr_ne _ _ _ _ (by omega), rd_wr_eq]

theorem add_dlen_lo (frame data : Nat → Nat) (t com idx ADP ADO length : Nat)
    (more : Bool) (h28 : 28 ≤ t) (hlt : t < 65536) :
    rd (Nexx__adddatagram frame t com idx more ADP ADO length data).1 (t + 6) =
      (if more then Nat.lor length 32768 else length) % 256 := by
  simp only [Nexx__adddatagram, setLE16, ETH_HEADERSIZE, Nex_HEADERSIZE,
    Nex_ELENGTHSIZE, Nex_WKCSIZE, Nex_DATAGRAMFOLLOWS]
  rw [Nat.mod_eq_of_lt hlt]
  rw [rd_wr_ne _ _ _ _ (by omega), rd_wr_ne _ _ _ _ (by omega),
    rd_wdd_lt _ _ _ _ _ _ (by omega), rd_wr_ne _ _ _ _ (by omega), rd_wr_eq]

theorem add_dlen_hi (frame data : Nat → Nat) (t com idx ADP ADO length : Nat)
    (more : Bool) (h28 : 28 ≤ t) (hlt : t < 65536) :
    rd (Nexx__adddatagram frame t com idx more ADP ADO length data).1 (t + 6 + 1) =
      (if more then Nat.lor length 32768 else length) / 256 % 256 := by
  simp only [Nexx__adddatagram, setLE16, ETH_HEADERSIZE, Nex_HEADERSIZE,
    Nex_ELENGTHSIZE, Nex_WKCSIZE, Nex_DATAGRAMFOLLOWS]
  rw [Nat.mod_eq_of_lt hlt]
  rw [rd_wr_ne _ _ _ _ (by omega), rd_wr_ne _ _ _ _ (by omega),
    rd_wdd_lt _ _ _ _ _ _ (by omega), rd_wr_eq]

theorem add_dlen_new (frame data : Nat → Nat) (t com idx ADP ADO length : Nat)
    (more : Bool) (h28 : 28 ≤ t) (hlt : t < 65536) :
    getLE16 (Nexx__adddatagram frame t com idx more ADP ADO length data).1
        (t + 6) =
      (if more then Nat.lor length 32768 else length) % 65536 := by
  have hlo := add_dlen_lo frame data t com idx ADP ADO length more h28 hlt
  have hhi := add_dlen_hi frame data t com idx ADP ADO length more h28 hlt
  unfold getLE16
  rw [hlo, hhi]
  omega

theorem add_adp (frame data : Nat → Nat) (t com idx ADP ADO length : Nat)
    (more : Bool) (h28 : 28 ≤ t) (hlt : t < 65536) :
    getLE16 (Nexx__adddatagram frame t com idx more ADP ADO length data).1
        (t + 2) =
      ADP % 65536 := by
  have hlo := add_adp_lo frame data t com idx ADP ADO length more h28 hlt
  have hhi := add_adp_hi frame data t com idx ADP ADO length more h28 hlt
  unfold getLE16
  rw [hlo, hhi]
  omega

theorem add_ado (frame data : Nat → Nat) (t com idx ADP ADO length : Nat)
    (more : Bool) (h28 : 28 ≤ t) (hlt : t < 65536) :
    getLE16 (Nexx__adddatagram frame t com idx more ADP ADO length data).1
        (t + 4) =
      ADO % 65536 := by
  have hlo := add_ado_lo frame data t com idx ADP ADO length more h28 hlt
  have hhi := add_ado_hi frame data t com idx ADP ADO length more h28 hlt
  unfold getLE16
  rw [hlo, hhi]
  omega

theorem add_payload (frame data : Nat → Nat) (t com idx ADP ADO length j : Nat)
    (more : Bool) (h28 : 28 ≤ t) (hlt : t < 65536) (hj : j < length) :
    rd (Nexx__adddatagram frame t com idx more ADP ADO length data).1
        (t + 10 + j) =
      if isReadCmd com then 0 else data j % 256 := by
  simp only [Nexx__adddatagram, setLE16, ETH_HEADERSIZE, Nex_HEADERSIZE,
    Nex_ELENGTHSIZE, Nex_WKCSIZE, Nex_DATAGRAMFOLLOWS]
  rw [Nat.mod_eq_of_lt hlt]
  rw [rd_wr_ne _ _ _ _ (by omega), rd_wr_ne _ _ _ _ (by omega),
    rd_wdd_in _ _ _ _ _ _ (by omega) (by omega)]
  have e : t + 10 + j - (t + 12 - 2) = j := by omega
  rw [e]

theorem add_wkc_lo (frame data : Nat → Nat) (t com idx ADP ADO length : Nat)
    (more : Bool) (h28 : 28 ≤ t) (hlt : t < 65536) :
    rd (Nexx__adddatagram frame t com idx more ADP ADO length data).1
        (t + 10 + length) = 0 := by
  simp only [Nexx__adddatagram, setLE16, ETH_HEADERSIZE, Nex_HEADERSIZE,
    Nex_ELENGTHSIZE, Nex_WKCSIZE, Nex_DATAGRAMFOLLOWS]
  rw [Nat.mod_eq_of_lt hlt]
  have e : t + 10 + length = t + 12 - 2 + length := by omega
  rw [e, rd_wr_ne _ _ _ _ (by omega), rd_wr_eq]

theorem add_wkc_hi (frame data : Nat → Nat) (t com idx ADP ADO length : Nat)
    (more : Bool) (h28 : 28 ≤ t) (hlt : t < 65536) :
    rd (Nexx__adddatagram frame t com idx more ADP ADO length data).1
        (t + 11 + length) = 0 := by
  simp only [Nexx__adddatagram, setLE16, ETH_HEADERSIZE, Nex_HEADERSIZE,
    Nex_ELENGTHSIZE, Nex_WKCSIZE, Nex_DATAGRAMFOLLOWS]
  rw [Nat.mod_eq_of_lt hlt]
  have e : t + 11 + length = t + 12 - 2 + length + 1 := by omega
  rw [e, rd_wr_eq]

theorem add_preserve (frame data : Nat → Nat) (t com idx ADP ADO length o : Nat)
    (more : Bool) (h28 : 28 ≤ t) (hlt : t < 65536) (ho : o < t)
    (h14 : o ≠ 14) (h15 : o ≠ 15) (h22 : o ≠ 22) (h23 : o ≠ 23) :
    rd (Nexx__adddatagram frame t com idx more ADP ADO length data).1 o =
      rd frame o := by
  simp only [Nexx__adddatagram, setLE16, ETH_HEADERSIZE, Nex_HEADERSIZE,
    Nex_ELENGTHSIZE, Nex_WKCSIZE, Nex_DATAGRAMFOLLOWS]
  rw [Nat.mod_eq_of_lt hlt]
  rw [rd_wr_ne _ _ _ _ (by omega), rd_wr_ne _ _ _ _ (by omega),
    rd_wdd_lt _ _ _ _ _ _ (by omega), rd_wr_ne _ _ _ _ (by omega),
    rd_wr_ne _ _ _ _ (by omega), rd_wr_ne _ _ _ _ (by omega),
    rd_wr_ne _ _ _ _ (by omega), rd_wr_ne _ _ _ _ (by omega),
    rd_wr_ne _ _ _ _ (by omega), rd_wr_ne _ _ _ _ (by omega),
    rd_wr_ne _ _ _ _ (by omega), rd_wr_ne _ _ _ _ (by omega),
    rd_wr_ne _ _ _ _ (by omega), rd_wr_ne _ _ _ _ (by omega),
    rd_wr_ne _ _ _ _ (by omega)]

theorem sumSize_cons (d : DgSpec) (r : List DgSpec) :
    sumSize (d :: r) = 12 + d.len + sumSize r := rfl

theorem build_aux (idx : Nat) (rest : List DgSpec) :
    ∀ (f : Nat → Nat) (t : Nat), 28 ≤ t →
    t + sumSize rest < 65536 →
    getLE16 f 14 + sumSize rest < 65536 →
    ((rest.foldl (buildStep idx) (f, t)).2 = t + sumSize rest
     ∧ (∀ o, o < t → o ≠ 14 → o ≠ 15 → o ≠ 22 → o ≠ 23 →
         rd (rest.foldl (buildStep idx) (f, t)).1 o = rd f o)
     ∧ getLE16 (rest.foldl (buildStep idx) (f, t)).1 14 =
         getLE16 f 14 + sumSize rest
     ∧ (rest = [] →
         getLE16 (rest.foldl (buildStep idx) (f, t)).1 22 = getLE16 f 22)
     ∧ (rest ≠ [] →
         (getLE16 (rest.foldl (buildStep idx) (f, t)).1 22).testBit 15 = true)
     ∧ (∀ i (h : i < rest.length),
         getLE16 (rest.foldl (buildStep idx) (f, t)).1
             (t + sumSize (rest.take i) + 6) =
           (if (rest.get ⟨i, h⟩).more then Nat.lor (rest.get ⟨i, h⟩).len 32768
            else (rest.get ⟨i, h⟩).len) % 65536)) := by
  induction rest with
  | nil =>
    intro f t h28 hb1 hb2
    refine ⟨by simp [sumSize], ?_, by simp [sumSize], fun _ => rfl,
      fun h => absurd rfl h, ?_⟩
    · intro o _ _ _ _ _
      rfl
    · intro i h
      exact absurd h (by simp)
  | cons d r ih =>
    intro f t h28 hb1 hb2
    rw [sumSize_cons] at hb1 hb2
    have hlt : t < 65536 := by omega
    have hF1 : getLE16 (Nexx__adddatagram f t d.com idx d.more d.ADP d.ADO
        d.len d.data).1 14 = getLE16 f 14 + 12 + d.len := by
      rw [add_elength f d.data t d.com idx d.ADP d.ADO d.len d.more h28 hlt]
      have : getLE16 f 14 + 12 + d.len < 65536 := by omega
      omega
    have hT1 : (Nexx__adddatagram f t d.com idx d.more d.ADP d.ADO
        d.len d.data).2.1 = t + 12 + d.len :=
      add_txlen f d.data t d.com idx d.ADP d.ADO d.len d.more hlt
    have hstep : List.foldl (buildStep idx) (f, t) (d :: r) =
        List.foldl (buildStep idx)
          ((Nexx__adddatagram f t d.com idx d.more d.ADP d.ADO d.len d.data).1,
            (Nexx__adddatagram f t d.com idx d.more d.ADP d.ADO
              d.len d.data).2.1) r := by
      simp [List.foldl_cons, buildStep]
    set f1 := (Nexx__adddatagram f t d.com idx d.more d.ADP d.ADO
      d.len d.data).1 with hf1
    set t1 := (Nexx__adddatagram f t d.com idx d.more d.ADP d.ADO
      d.len d.data).2.1 with ht1
    have ht1v : t1 = t + 12 + d.len := hT1
    have ih2 := ih f1 t1 (by omega) (by omega) (by rw [hF1]; omega)
    rw [hstep]
    obtain ⟨iha, ihb, ihc, ihd, ihe, ihf⟩ := ih2
    refine ⟨by rw [iha]; rw [sumSize_cons]; omega, ?_, ?_, ?_, ?_, ?_⟩
    · intro o ho h14 h15 h22 h23
      rw [ihb o (by omega) h14 h15 h22 h23]
      exact add_preserve f d.data t d.com idx d.ADP d.ADO d.len o d.more
        h28 hlt ho h14 h15 h22 h23
    · rw [ihc, hF1, sumSize_cons]
      omega
    · intro h
      exact absurd h (by simp)
    · intro _
      by_cases hr : r = []
      · subst hr
        have h22 := ihd rfl
        rw [h22, hf1,
          add_dlen0 f d.data t d.com idx d.ADP d.ADO d.len d.more h28 hlt]
        exact testBit15_lor_mod (getLE16 f 22)
      · exact ihe hr
    · intro i h
      match i with
      | 0 =>
        have hoff : t + sumSize ((d :: r).take 0) + 6 = t + 6 := by
          simp [sumSize]
        rw [hoff]
        have hp1 : rd (List.foldl (buildStep idx) (f1, t1) r).1 (t + 6) =
            rd f1 (t + 6) := by
          by_cases hr : r = []
          · subst hr; rfl
          · exact ihb (t + 6) (by omega) (by omega) (by omega) (by omega)
              (by omega)
        have hp2 : rd (List.foldl (buildStep idx) (f1, t1) r).1 (t + 6 + 1) =
            rd f1 (t + 6 + 1) := by
          by_cases hr : r = []
          · subst hr; rfl
          · exact ihb (t + 6 + 1) (by omega) (by omega) (by omega) (by omega)
              (by omega)
        show getLE16 _ (t + 6) = _
        unfold getLE16
        rw [hp1, hp2]
        have : rd f1 (t + 6) + 256 * rd f1 (t + 6 + 1) = getLE16 f1 (t + 6) :=
          rfl
        rw [this, hf1,
          add_dlen_new f d.data t d.com idx d.ADP d.ADO d.len d.more h28 hlt]
        simp [List.get]
      | Nat.succ i2 =>
        have hoff : t + sumSize ((d :: r).take (i2 + 1)) + 6 =
            t1 + sumSize (r.take i2) + 6 := by
          rw [List.take_succ_cons, sumSize_cons]
          omega
        rw [hoff]
        have hh : i2 < r.length := by
          simpa using h
        have := ihf i2 hh
        rw [this]
        congr 1

theorem lor_type_nibble (x : Nat) (h : x < 4096) :
    Nex_ECATTYPE + x = Nat.lor Nex_ECATTYPE x := by
  have hx : x < 2 ^ 12 := by omega
  have e1 : Nex_ECATTYPE = 2 ^ 12 * 1 := by norm_num [Nex_ECATTYPE]
  rw [e1]
  exact Nat.mul_add_lt_is_or hx 1

/-- Claim C10: if the underlying byte-level read fails (`Nexx__APRD`
respectively `Nexx__FPRD` returns `wkc ≤ 0`, for example the `NEX_NOFRAME`
timeout sentinel), then `Nexx__APRDw` respectively `Nexx__FPRDw` returns 0,
because the zero-initialized local word is never overwritten on a failed
transfer. -/
theorem C10_word_reads_return_zero_on_failure (idx ADP ADO idx2 ADP2 ADO2 : Nat)
    (txbuf0 txbuf2 : Nat → Nat) (sr sr2 : SRResult)
    (hw : sr.wkc ≤ 0) (hw2 : sr2.wkc ≤ 0) :
    Nexx__APRDw idx ADP ADO txbuf0 sr = 0 ∧
      Nexx__FPRDw idx2 ADP2 ADO2 txbuf2 sr2 = 0 := by
  have h : ¬ (0 < sr.wkc) := by omega
  have h2 : ¬ (0 < sr2.wkc) := by omega
  constructor
  · simp [Nexx__APRDw, Nexx__APRD, h]
  · simp [Nexx__FPRDw, Nexx__FPRD, h2]

theorem C10_witness :
    Nexx__APRDw 3 1 2 zeroBuf ⟨-1, rxBad⟩ = 0 ∧
      Nexx__FPRDw 3 1 2 zeroBuf ⟨0, rxBad⟩ = 0 :=
  C10_word_reads_return_zero_on_failure 3 1 2 3 1 2 zeroBuf zeroBuf
    ⟨-1, rxBad⟩ ⟨0, rxBad⟩ (by decide) (by decide)

/-- Claim C9: for `Nexx__LRD`, `Nexx__LRW` and `Nexx__LRWDC`, whenever the
transport returns `wkc > 0` but the command byte of the received frame
differs from the command that was sent, the read-back copy is skipped (the
caller's data buffer, and for LRWDC also `*DCtime`, is left unchanged) and
the transport's `wkc` is still returned unchanged. -/
theorem C9_mismatch_skips_readback (idx LogAdr length DCrs : Nat)
    (data txbuf0 : Nat → Nat) (DCt : Int) (sr : SRResult) (_hw : 0 < sr.wkc) :
    (rd sr.rx Nex_CMDOFFSET ≠ Nex_CMD_LRD →
      (Nexx__LRD idx LogAdr length data txbuf0 sr).wkc = sr.wkc ∧
        (Nexx__LRD idx LogAdr length data txbuf0 sr).data = data) ∧
    (rd sr.rx Nex_CMDOFFSET ≠ Nex_CMD_LRW →
      (Nexx__LRW idx LogAdr length data txbuf0 sr).wkc = sr.wkc ∧
        (Nexx__LRW idx LogAdr length data txbuf0 sr).data = data) ∧
    (rd sr.rx Nex_CMDOFFSET ≠ Nex_CMD_LRW →
      (Nexx__LRWDC idx LogAdr length data DCrs DCt txbuf0 sr).wkc = sr.wkc ∧
        (Nexx__LRWDC idx LogAdr length data DCrs DCt txbuf0 sr).data = data ∧
        (Nexx__LRWDC idx LogAdr length data DCrs DCt txbuf0 sr).DCtime = DCt) := by
  refine ⟨?_, ?_, ?_⟩
  · intro h
    have hc : ¬ (0 < sr.wkc ∧ rd sr.rx Nex_CMDOFFSET = Nex_CMD_LRD) :=
      fun hx => h hx.2
    constructor <;> simp [Nexx__LRD, hc]
  · intro h
    have hc : ¬ (0 < sr.wkc ∧ rd sr.rx Nex_CMDOFFSET = Nex_CMD_LRW) :=
      fun hx => h hx.2
    constructor <;> simp [Nexx__LRW, hc]
  · intro h
    have hc : ¬ (0 < sr.wkc ∧ rd sr.rx Nex_CMDOFFSET = Nex_CMD_LRW) :=
      fun hx => h hx.2
    refine ⟨?_, ?_, ?_⟩ <;> simp [Nexx__LRWDC, hc]

theorem C9_witness :
    (Nexx__LRD 1 65536 2 data40 zeroBuf ⟨3, rxBad⟩).wkc = 3 ∧
      (Nexx__LRD 1 65536 2 data40 zeroBuf ⟨3, rxBad⟩).data = data40 ∧
      (Nexx__LRW 1 65536 2 data40 zeroBuf ⟨3, rxBad⟩).wkc = 3 ∧
      (Nexx__LRW 1 65536 2 data40 zeroBuf ⟨3, rxBad⟩).data = data40 ∧
      (Nexx__LRWDC 1 65536 2 data40 4096 7 zeroBuf ⟨3, rxBad⟩).wkc = 3 ∧
      (Nexx__LRWDC 1 65536 2 data40 4096 7 zeroBuf ⟨3, rxBad⟩).data = data40 ∧
      (Nexx__LRWDC 1 65536 2 data40 4096 7 zeroBuf ⟨3, rxBad⟩).DCtime = 7 := by
  have h := C9_mismatch_skips_readback 1 65536 2 4096 data40 zeroBuf 7
    ⟨3, rxBad⟩ (by decide)
  exact ⟨(h.1 (by decide)).1, (h.1 (by decide)).2, (h.2.1 (by decide)).1,
    (h.2.1 (by decide)).2, (h.2.2 (by decide)).1, (h.2.2 (by decide)).2.1,
    (h.2.2 (by decide)).2.2⟩

/-- Claim C7: for every command in {NOP, APRD, FPRD, BRD, LRD} the
length-byte payload region written into the transmit buffer (by
`Nexx__setupdatagram` at offset 26, and by `Nexx__adddatagram` at offset
`prevlength + 10`) is all zero regardless of the contents of `data`; for
every other command the payload region equals the first `length` bytes of
`data`. -/
theorem C7_read_payload_zeroed (frame0 data : Nat → Nat)
    (com idx ADP ADO length prev j : Nat) (more : Bool)
    (hj : j < length) (h28 : 28 ≤ prev) (hlt : prev < 65536) :
    rd (Nexx__setupdatagram frame0 com idx ADP ADO length data).1 (26 + j) =
      (if isReadCmd com then 0 else data j % 256) ∧
    rd (Nexx__adddatagram frame0 prev com idx more ADP ADO length data).1
        (prev + 10 + j) =
      (if isReadCmd com then 0 else data j % 256) :=
  ⟨setup_payload frame0 data com idx ADP ADO length j hj,
    add_payload frame0 data prev com idx ADP ADO length j more h28 hlt hj⟩

theorem C7_witness :
    rd (Nexx__setupdatagram zeroBuf 1 3 0 0 2 data40).1 26 = 0 ∧
      rd (Nexx__adddatagram zeroBuf 36 5 3 false 0 0 2 data40).1 46 = 4 := by
  constructor
  · have h := (C7_read_payload_zeroed zeroBuf data40 1 3 0 0 2 36 0 false
      (by decide) (by decide) (by decide)).1
    simpa [isReadCmd] using h
  · have h := (C7_read_payload_zeroed zeroBuf data40 5 3 0 0 2 36 0 false
      (by decide) (by decide) (by decide)).2
    simpa [isReadCmd, data40] using h

/-- Claim C6: after every `Nexx__setupdatagram(com, idx, ADP, ADO, length,
data)` call (with the spec's `length ≤ 1486` precondition, on a transmit
buffer whose IRQ bytes hold the zero the port-open preset left there —
this layer itself never writes offsets 24..25), bytes 16..25 of the
transmit buffer contain exactly: the command byte, the index byte, ADP as
little-endian u16, ADO as little-endian u16, length as little-endian u16
with the more-follows bit (bit 15) clear, and two IRQ bytes both zero. -/
theorem C6_setup_subheader_bytes (frame0 data : Nat → Nat)
    (com idx ADP ADO length : Nat) (hlen : length ≤ 1486)
    (h24 : rd frame0 24 = 0) (h25 : rd frame0 25 = 0) :
    rd (Nexx__setupdatagram frame0 com idx ADP ADO length data).1 16 =
        com % 256 ∧
      rd (Nexx__setupdatagram frame0 com idx ADP ADO length data).1 17 =
        idx % 256 ∧
      rd (Nexx__setupdatagram frame0 com idx ADP ADO length data).1 18 =
        ADP % 256 ∧
      rd (Nexx__setupdatagram frame0 com idx ADP ADO length data).1 19 =
        ADP / 256 % 256 ∧
      rd (Nexx__setupdatagram frame0 com idx ADP ADO length data).1 20 =
        ADO % 256 ∧
      rd (Nexx__setupdatagram frame0 com idx ADP ADO length data).1 21 =
        ADO / 256 % 256 ∧
      rd (Nexx__setupdatagram frame0 com idx ADP ADO length data).1 22 =
        length % 256 ∧
      rd (Nexx__setupdatagram frame0 com idx ADP ADO length data).1 23 =
        length / 256 % 256 ∧
      (getLE16 (Nexx__setupdatagram frame0 com idx ADP ADO length data).1
          22).testBit 15 = false ∧
      rd (Nexx__setupdatagram frame0 com idx ADP ADO length data).1 24 = 0 ∧
      rd (Nexx__setupdatagram frame0 com idx ADP ADO length data).1 25 = 0 := by
  refine ⟨setup_cmd frame0 data com idx ADP ADO length,
    setup_idx frame0 data com idx ADP ADO length,
    setup_adp_lo frame0 data com idx ADP ADO length,
    setup_adp_hi frame0 data com idx ADP ADO length,
    setup_ado_lo frame0 data com idx ADP ADO length,
    setup_ado_hi frame0 data com idx ADP ADO length,
    setup_dlen_lo frame0 data com idx ADP ADO length,
    setup_dlen_hi frame0 data com idx ADP ADO length, ?_, ?_, ?_⟩
  · rw [setup_dlen frame0 data com idx ADP ADO length,
      Nat.mod_eq_of_lt (by omega)]
    exact testBit15_of_lt length (by omega)
  · rw [setup_irq_lo frame0 data com idx ADP ADO length]
    exact h24
  · rw [setup_irq_hi frame0 data com idx ADP ADO length]
    exact h25

theorem C6_witness :
    rd (Nexx__setupdatagram zeroBuf 5 15 4097 288 2 data40).1 16 = 5 % 256 ∧
      rd (Nexx__setupdatagram zeroBuf 5 15 4097 288 2 data40).1 17 = 15 % 256 ∧
      rd (Nexx__setupdatagram zeroBuf 5 15 4097 288 2 data40).1 18 = 4097 % 256 ∧
      rd (Nexx__setupdatagram zeroBuf 5 15 4097 288 2 data40).1 19 =
        4097 / 256 % 256 ∧
      rd (Nexx__setupdatagram zeroBuf 5 15 4097 288 2 data40).1 20 = 288 % 256 ∧
      rd (Nexx__setupdatagram zeroBuf 5 15 4097 288 2 data40).1 21 =
        288 / 256 % 256 ∧
      rd (Nexx__setupdatagram zeroBuf 5 15 4097 288 2 data40).1 22 = 2 % 256 ∧
      rd (Nexx__setupdatagram zeroBuf 5 15 4097 288 2 data40).1 23 =
        2 / 256 % 256 ∧
      (getLE16 (Nexx__setupdatagram zeroBuf 5 15 4097 288 2 data40).1
          22).testBit 15 = false ∧
      rd (Nexx__setupdatagram zeroBuf 5 15 4097 288 2 data40).1 24 = 0 ∧
      rd (Nexx__setupdatagram zeroBuf 5 15 4097 288 2 data40).1 25 = 0 :=
  C6_setup_subheader_bytes zeroBuf data40 5 15 4097 288 2 (by decide)
    (by decide) (by decide)

/-- Claim C5 counterexample: at `length = 0` the EtherCAT-type/length word
written at offsets 14..15 decodes to `0x100C = ECAT_TYPE_CONST | 12`, not
`ECAT_TYPE_CONST | (10 + 0) = 0x100A` as the claim states. -/
theorem C5_counterexample :
    getLE16 (Nexx__setupdatagram zeroBuf 8 0 0 0 0 zeroBuf).1 14 ≠
      Nat.lor 4096 (10 + 0) := by
  decide

/-- Claim C5 (amended): for all inputs with `length ≤ 1486`, after
`Nexx__setupdatagram` returns, `txbuflength[idx]` equals `26 + length + 2`,
and the two bytes at offsets 14..15 of the transmit buffer decode as a
little-endian u16 to `ECAT_TYPE_CONST | (12 + length)` — the EtherCAT
header counts the 12-byte `Nex_comt` header (type word + sub-header), not
10. -/
theorem C5_setup_header (frame0 data : Nat → Nat)
    (com idx ADP ADO length : Nat) (hlen : length ≤ 1486) :
    (Nexx__setupdatagram frame0 com idx ADP ADO length data).2 =
        26 + length + 2 ∧
      getLE16 (Nexx__setupdatagram frame0 com idx ADP ADO length data).1 14 =
        Nat.lor Nex_ECATTYPE (12 + length) := by
  constructor
  · rw [setup_txlen frame0 data com idx ADP ADO length]
    omega
  · rw [setup_elength frame0 data com idx ADP ADO length,
      ← lor_type_nibble (12 + length) (by omega)]
    have : Nex_ECATTYPE + (12 + length) = 4108 + length := by
      unfold Nex_ECATTYPE
      omega
    rw [this]
    exact Nat.mod_eq_of_lt (by omega)

theorem C5_witness :
    (Nexx__setupdatagram zeroBuf 5 15 4097 288 2 data40).2 = 26 + 2 + 2 ∧
      getLE16 (Nexx__setupdatagram zeroBuf 5 15 4097 288 2 data40).1 14 =
        Nat.lor Nex_ECATTYPE (12 + 2) :=
  C5_setup_header zeroBuf data40 5 15 4097 288 2 (by decide)

/-- Claim C2 counterexample: on a frame whose `txbuflength` is 36 before
the call (one datagram with an 8-byte payload), `Nexx__adddatagram`
returns 32, not `36 - 6 = 30`. -/
theorem C2_counterexample :
    (Nexx__adddatagram zeroBuf 36 14 0 false 0 0 8 zeroBuf).2.2 ≠ 36 - 6 := by
  decide

/-- Claim C2 (amended): for every `Nexx__adddatagram` call on a frame slot
whose `txbuflength` is `prev` before the call (any well-formed `prev`:
`28 ≤ prev < 65536`), the returned receive-frame offset equals `prev - 4`,
not `prev - 6`: the new sub-header's command byte lands at tx offset
`prev` (the 2-byte elength member of the header struct overlays the old
WKC and is not written), so the payload lands at tx offset `prev + 10`,
which is `prev - 4` after the 14-byte Ethernet header is stripped.
Concretely, payload byte `j` of the added datagram sits at tx offset
`(prev - 4) + 14 + j`. -/
theorem C2_add_return_offset (frame0 data : Nat → Nat)
    (com idx ADP ADO length j : Nat) (more : Bool) (prev : Nat)
    (h28 : 28 ≤ prev) (hlt : prev < 65536) (hj : j < length) :
    (Nexx__adddatagram frame0 prev com idx more ADP ADO length data).2.2 =
        prev - 4 ∧
      rd (Nexx__adddatagram frame0 prev com idx more ADP ADO length data).1
          (prev - 4 + 14 + j) =
        (if isReadCmd com then 0 else data j % 256) := by
  constructor
  · exact add_ret frame0 data prev com idx ADP ADO length more (by omega) hlt
  · have e : prev - 4 + 14 + j = prev + 10 + j := by omega
    rw [e]
    exact add_payload frame0 data prev com idx ADP ADO length j more h28 hlt hj

theorem C2_witness :
    (Nexx__adddatagram zeroBuf 36 14 0 false 0 0 8 zeroBuf).2.2 = 36 - 4 ∧
      rd (Nexx__adddatagram zeroBuf 36 14 0 false 0 0 8 zeroBuf).1
          (36 - 4 + 14 + 0) =
        (if isReadCmd 14 then 0 else zeroBuf 0 % 256) :=
  C2_add_return_offset zeroBuf zeroBuf 14 0 0 0 8 0 false 36 (by decide)
    (by decide) (by decide)

/-- Claim C1 counterexample: a `Nexx__LRWDC` call with `length = 2` whose
transport returns `wkc = 3 > 0` and whose received frame carries the LRW
command byte. The integer returned to the caller is 5, the little-endian
value at receive offset `12 + length = 14` (the LRW datagram's WKC field:
2-byte type word + 10-byte sub-header + payload); the claim's offset
`10 + length = 12` holds the payload byte 9 instead. -/
theorem C1_counterexample :
    (Nexx__LRWDC 0 65536 2 zeroBuf 4096 0 zeroBuf ⟨3, rxLRW⟩).wkc ≠
      ((rd rxLRW (10 + 2) + 256 * rd rxLRW (10 + 2 + 1) : Nat) : Int) := by
  decide

/-- Claim C1 (amended): for every `Nexx__LRWDC` call in which the
transport's send-receive-confirm returns `wkc > 0` (a working counter,
hence below 2^16 — only the low two bytes of the `int wkc` are
overwritten by the `memcpy`) and the command byte of the received frame
equals LRW, the integer returned to the caller equals the LRW datagram's
own working counter, read as a two-byte little-endian value at offset
`12 + length` of the receive buffer (2-byte type word + 10-byte sub-header
+ `length` payload bytes), overriding the aggregated working counter
returned by the transport. -/
theorem C1_lrwdc_wkc_override (idx LogAdr length DCrs : Nat)
    (data txbuf0 : Nat → Nat) (DCt : Int) (sr : SRResult)
    (hw : 0 < sr.wkc) (hw16 : sr.wkc < 65536)
    (hcmd : rd sr.rx Nex_CMDOFFSET = Nex_CMD_LRW) :
    (Nexx__LRWDC idx LogAdr length data DCrs DCt txbuf0 sr).wkc =
      ((rd sr.rx (12 + length) + 256 * rd sr.rx (12 + length + 1) : Nat) :
        Int) := by
  have hc : 0 < sr.wkc ∧ rd sr.rx Nex_CMDOFFSET = Nex_CMD_LRW := ⟨hw, hcmd⟩
  simp only [Nexx__LRWDC, if_pos hc, Nex_HEADERSIZE]
  omega

theorem C1_witness :
    (Nexx__LRWDC 0 65536 2 zeroBuf 4096 0 zeroBuf ⟨3, rxLRW⟩).wkc =
      ((rd rxLRW (12 + 2) + 256 * rd rxLRW (12 + 2 + 1) : Nat) : Int) :=
  C1_lrwdc_wkc_override 0 65536 2 4096 zeroBuf zeroBuf 0 ⟨3, rxLRW⟩
    (by decide) (by decide) (by decide)

/-- Claim C8: every `Nexx__LRWDC` call chains exactly one second datagram
into the frame via `Nexx__adddatagram`: an FRMW datagram whose sub-header
starts at tx offset `28 + length` (the `txbuflength` the LRW setup left),
with ADP = DCrs, ADO = `ECT_REG_DCSYSTIME = 0x0910`, `more = false`
(dlength word equals plain 8, bit 15 clear), and an 8-byte payload
carrying the little-endian conversion `htoell(*DCtime)`; the final
`txbuflength` is `48 + length` (two datagrams) and the EtherCAT
header counts both datagrams (`0x1000 + 24 + 8 + length = 4128 + length`).
The returned `DCtO` receive offset is `24 + length`. The source passes
`sizeof(DCtime)` — the size of a pointer — as the payload length; it is
modelled as 8, its value on the 64-bit host, which the spec's §9 states is
the intent. -/
theorem C8_lrwdc_frmw_datagram (idx LogAdr length DCrs : Nat)
    (data txbuf0 : Nat → Nat) (DCt : Int) (sr : SRResult)
    (hlen : length ≤ 1486) :
    (Nexx__LRWDC idx LogAdr length data DCrs DCt txbuf0 sr).txlen =
        48 + length ∧
      getLE16 (Nexx__LRWDC idx LogAdr length data DCrs DCt txbuf0 sr).txframe
          14 = 4128 + length ∧
      rd (Nexx__LRWDC idx LogAdr length data DCrs DCt txbuf0 sr).txframe
          (28 + length) = Nex_CMD_FRMW ∧
      rd (Nexx__LRWDC idx LogAdr length data DCrs DCt txbuf0 sr).txframe
          (28 + length + 1) = idx % 256 ∧
      getLE16 (Nexx__LRWDC idx LogAdr length data DCrs DCt txbuf0 sr).txframe
          (28 + length + 2) = DCrs % 65536 ∧
      getLE16 (Nexx__LRWDC idx LogAdr length data DCrs DCt txbuf0 sr).txframe
          (28 + length + 4) = ECT_REG_DCSYSTIME ∧
      getLE16 (Nexx__LRWDC idx LogAdr length data DCrs DCt txbuf0 sr).txframe
          (28 + length + 6) = 8 ∧
      (∀ j, j < 8 →
        rd (Nexx__LRWDC idx LogAdr length data DCrs DCt txbuf0 sr).txframe
            (28 + length + 10 + j) = htoellBytes DCt j) ∧
      (Nexx__LRWDC idx LogAdr length data DCrs DCt txbuf0 sr).DCtO =
        24 + length := by
  simp only [Nexx__LRWDC]
  have hs : (Nexx__setupdatagram txbuf0 Nex_CMD_LRW idx (LO_WORD LogAdr)
      (HI_WORD LogAdr) length data).2 = 28 + length :=
    setup_txlen txbuf0 data Nex_CMD_LRW idx (LO_WORD LogAdr) (HI_WORD LogAdr)
      length
  rw [hs]
  have h28 : 28 ≤ 28 + length := by omega
  have hlt : 28 + length < 65536 := by omega
  refine ⟨?_, ?_, ?_, ?_, ?_, ?_, ?_, ?_, ?_⟩
  · rw [add_txlen _ _ _ _ _ _ _ _ _ hlt]
    omega
  · rw [add_elength _ _ _ _ _ _ _ _ _ h28 hlt,
      setup_elength txbuf0 data Nex_CMD_LRW idx (LO_WORD LogAdr)
        (HI_WORD LogAdr) length]
    omega
  · rw [add_cmd _ _ _ _ _ _ _ _ _ h28 hlt]
    decide
  · rw [add_idx _ _ _ _ _ _ _ _ _ h28 hlt]
  · rw [add_adp _ _ _ _ _ _ _ _ _ h28 hlt]
  · rw [add_ado _ _ _ _ _ _ _ _ _ h28 hlt]
    decide
  · rw [add_dlen_new _ _ _ _ _ _ _ _ _ h28 hlt]
    decide
  · intro j hj
    rw [add_payload _ _ _ _ _ _ _ _ _ _ h28 hlt hj]
    have : isReadCmd Nex_CMD_FRMW = false := rfl
    rw [this]
    simp only [Bool.false_eq_true, if_false]
    unfold htoellBytes
    omega
  · rw [add_ret _ _ _ _ _ _ _ _ _ (by omega) hlt]
    omega

theorem C8_witness :
    (Nexx__LRWDC 3 65536 2 data40 4096 (-1) zeroBuf ⟨3, rxLRW⟩).txlen =
        48 + 2 ∧
      getLE16 (Nexx__LRWDC 3 65536 2 data40 4096 (-1) zeroBuf
          ⟨3, rxLRW⟩).txframe 14 = 4128 + 2 ∧
      rd (Nexx__LRWDC 3 65536 2 data40 4096 (-1) zeroBuf ⟨3, rxLRW⟩).txframe
          (28 + 2) = Nex_CMD_FRMW ∧
      rd (Nexx__LRWDC 3 65536 2 data40 4096 (-1) zeroBuf ⟨3, rxLRW⟩).txframe
          (28 + 2 + 1) = 3 % 256 ∧
      getLE16 (Nexx__LRWDC 3 65536 2 data40 4096 (-1) zeroBuf
          ⟨3, rxLRW⟩).txframe (28 + 2 + 2) = 4096 % 65536 ∧
      getLE16 (Nexx__LRWDC 3 65536 2 data40 4096 (-1) zeroBuf
          ⟨3, rxLRW⟩).txframe (28 + 2 + 4) = ECT_REG_DCSYSTIME ∧
      getLE16 (Nexx__LRWDC 3 65536 2 data40 4096 (-1) zeroBuf
          ⟨3, rxLRW⟩).txframe (28 + 2 + 6) = 8 ∧
      rd (Nexx__LRWDC 3 65536 2 data40 4096 (-1) zeroBuf ⟨3, rxLRW⟩).txframe
          (28 + 2 + 10 + 0) = htoellBytes (-1) 0 ∧
      (Nexx__LRWDC 3 65536 2 data40 4096 (-1) zeroBuf ⟨3, rxLRW⟩).DCtO =
        24 + 2 := by
  have h := C8_lrwdc_frmw_datagram 3 65536 2 4096 data40 zeroBuf (-1)
    ⟨3, rxLRW⟩ (by decide)
  exact ⟨h.1, h.2.1, h.2.2.1, h.2.2.2.1, h.2.2.2.2.1, h.2.2.2.2.2.1,
    h.2.2.2.2.2.2.1, h.2.2.2.2.2.2.2.1 0 (by decide), h.2.2.2.2.2.2.2.2⟩

theorem sumSize_eq (r : List DgSpec) :
    sumSize r = 12 * r.length + sumLens r := by
  induction r with
  | nil => rfl
  | cons d t ih =>
    rw [sumSize_cons]
    simp only [List.length_cons, sumLens]
    omega

/-- Claim C3 counterexample: a frame built by one `Nexx__setupdatagram`
call with payload length 0 and `k = 0` further datagrams has
`txbuflength = 28`, not `14 + 10*(0+1) + 0 + 2 = 26` — each datagram
contributes its 10-byte sub-header plus its own 2-byte WKC. -/
theorem C3_counterexample :
    (buildFrame zeroBuf 0 ⟨8, false, 0, 0, 0, zeroBuf⟩ []).2 ≠
      14 + 10 * (0 + 1) + (0 + sumLens []) + 2 := by
  decide

/-- Claim C3 (amended): for any frame built by one `Nexx__setupdatagram`
call followed by k `Nexx__adddatagram` calls with payload lengths
L0…Lk (total bounded so the length field cannot overflow its 11 bits),
the final txbuflength equals `14 + 12*(k+1) + (L0+…+Lk) + 2(k+1)`, i.e.
`14 + 12*(k+1) + ΣL + 2` with 12 (not 10) bytes of overhead per datagram
beyond the first WKC, because every datagram carries its own 2-byte WKC;
the little-endian EtherCAT header length field at offset 14 equals
`12*(k+1) + ΣL` OR'd with the type nibble; and each `Nexx__adddatagram`
call sets txbuflength to `prev - 2 + 12 + length + 2` (the source's
`prevlength + Nex_HEADERSIZE - Nex_ELENGTHSIZE + Nex_WKCSIZE + length`),
not `prev - 2 + 10 + length + 2`. -/
theorem C3_frame_length (frame0 : Nat → Nat) (idx : Nat) (first : DgSpec)
    (rest : List DgSpec)
    (hb : 12 * (rest.length + 1) + (first.len + sumLens rest) ≤ 2047) :
    (buildFrame frame0 idx first rest).2 =
        14 + 12 * (rest.length + 1) + (first.len + sumLens rest) + 2 ∧
      getLE16 (buildFrame frame0 idx first rest).1 14 =
        Nat.lor Nex_ECATTYPE
          (12 * (rest.length + 1) + (first.len + sumLens rest)) ∧
      ∀ (g dat : Nat → Nat) (prev com2 idx2 ADP ADO len2 : Nat)
        (more2 : Bool), 2 ≤ prev → prev < 65536 →
        (Nexx__adddatagram g prev com2 idx2 more2 ADP ADO len2 dat).2.1 =
          prev - 2 + 12 + len2 + 2 := by
  have hss : sumSize rest = 12 * rest.length + sumLens rest := sumSize_eq rest
  unfold buildFrame
  have hs2 : (Nexx__setupdatagram frame0 first.com idx first.ADP first.ADO
      first.len first.data).2 = 28 + first.len :=
    setup_txlen frame0 first.data first.com idx first.ADP first.ADO first.len
  have hse : getLE16 (Nexx__setupdatagram frame0 first.com idx first.ADP
      first.ADO first.len first.data).1 14 = 4108 + first.len := by
    rw [setup_elength frame0 first.data first.com idx first.ADP first.ADO
      first.len]
    exact Nat.mod_eq_of_lt (by omega)
  have aux := build_aux idx rest
    (Nexx__setupdatagram frame0 first.com idx first.ADP first.ADO first.len
      first.data).1
    (Nexx__setupdatagram frame0 first.com idx first.ADP first.ADO first.len
      first.data).2
    (by rw [hs2]; omega) (by rw [hs2]; omega) (by rw [hse]; omega)
  rw [Prod.mk.eta] at aux
  obtain ⟨ha, _, hc, _, _, _⟩ := aux
  refine ⟨?_, ?_, ?_⟩
  · rw [ha, hs2]
    omega
  · rw [hc, hse, ← lor_type_nibble _ (by omega)]
    simp only [Nex_ECATTYPE]
    omega
  · intro g dat prev com2 idx2 ADP ADO len2 more2 h2 hlt2
    rw [add_txlen g dat prev com2 idx2 ADP ADO len2 more2 hlt2]
    omega

theorem C3_witness :
    (buildFrame zeroBuf 0 ⟨8, false, 0, 0, 3, zeroBuf⟩
        [⟨5, false, 1, 2, 4, zeroBuf⟩]).2 =
      14 + 12 * (([⟨5, false, 1, 2, 4, zeroBuf⟩] : List DgSpec).length + 1) +
        (3 + sumLens [⟨5, false, 1, 2, 4, zeroBuf⟩]) + 2 ∧
    getLE16 (buildFrame zeroBuf 0 ⟨8, false, 0, 0, 3, zeroBuf⟩
        [⟨5, false, 1, 2, 4, zeroBuf⟩]).1 14 =
      Nat.lor Nex_ECATTYPE
        (12 * (([⟨5, false, 1, 2, 4, zeroBuf⟩] : List DgSpec).length + 1) +
          (3 + sumLens [⟨5, false, 1, 2, 4, zeroBuf⟩])) ∧
    (Nexx__adddatagram zeroBuf 36 5 0 false 1 2 4 zeroBuf).2.1 =
      36 - 2 + 12 + 4 + 2 := by
  have h := C3_frame_length zeroBuf 0 ⟨8, false, 0, 0, 3, zeroBuf⟩
    [⟨5, false, 1, 2, 4, zeroBuf⟩] (by decide)
  exact ⟨h.1, h.2.1, h.2.2 zeroBuf zeroBuf 36 5 0 1 2 4 false (by decide)
    (by decide)⟩

/-- Claim C4 counterexample: build one `Nexx__setupdatagram` frame (LRW,
length 0) and two `Nexx__adddatagram` calls that both pass `more = false`
(so `more = false` is passed on the last). The middle datagram (index 1 of
0..2, dlength word at offset 34) is not the last, yet bit 15 of its
dlength is clear: `Nexx__adddatagram` never touches the
immediately-preceding datagram's dlength — it ORs the flag into the
*first* datagram's dlength (offset 22) — so a non-first datagram's flag
comes only from its own `more` argument. -/
theorem C4_counterexample :
    (getLE16 (buildFrame zeroBuf 0 ⟨12, false, 0, 0, 0, zeroBuf⟩
        [⟨14, false, 0, 0, 0, zeroBuf⟩, ⟨14, false, 0, 0, 0, zeroBuf⟩]).1
        (dgDlenOff ⟨12, false, 0, 0, 0, zeroBuf⟩
          [⟨14, false, 0, 0, 0, zeroBuf⟩, ⟨14, false, 0, 0, 0, zeroBuf⟩]
          1)).testBit 15 = false := by
  decide

/-- Claim C4 (amended): in every frame built by one `Nexx__setupdatagram`
call and any number of `Nexx__adddatagram` calls in which each call passes
`more = true` iff further datagrams follow (so `more = false` on the last
and `more = true` on the others — the claim's stated discipline extended
to all calls, which is what the code requires), bit 15 of the dlength
field is set for every datagram except the last and clear for the last.
The mechanism differs from the claim: each `Nexx__adddatagram` call sets
the more-follows bit of the *first* datagram's dlength, and every other
datagram's bit comes from its own `more` argument, not from the following
call. -/
theorem C4_more_follows_bits (frame0 : Nat → Nat) (idx : Nat)
    (first : DgSpec) (rest : List DgSpec) (i : Nat)
    (hfl : first.len < 32768)
    (hl : ∀ d ∈ rest, d.len < 32768)
    (hb : 28 + first.len + sumSize rest ≤ 2061)
    (hdisc : ∀ i2 (h : i2 < rest.length),
      (rest.get ⟨i2, h⟩).more = decide (i2 + 1 < rest.length))
    (hi : i ≤ rest.length) :
    (getLE16 (buildFrame frame0 idx first rest).1
        (dgDlenOff first rest i)).testBit 15 = decide (i < rest.length) := by
  unfold buildFrame
  have hs2 : (Nexx__setupdatagram frame0 first.com idx first.ADP first.ADO
      first.len first.data).2 = 28 + first.len :=
    setup_txlen frame0 first.data first.com idx first.ADP first.ADO first.len
  have hse : getLE16 (Nexx__setupdatagram frame0 first.com idx first.ADP
      first.ADO first.len first.data).1 14 = (4108 + first.len) % 65536 :=
    setup_elength frame0 first.data first.com idx first.ADP first.ADO first.len
  have hsd : getLE16 (Nexx__setupdatagram frame0 first.com idx first.ADP
      first.ADO first.len first.data).1 22 = first.len := by
    rw [setup_dlen frame0 first.data first.com idx first.ADP first.ADO
      first.len]
    exact Nat.mod_eq_of_lt (by omega)
  have aux := build_aux idx rest
    (Nexx__setupdatagram frame0 first.com idx first.ADP first.ADO first.len
      first.data).1
    (Nexx__setupdatagram frame0 first.com idx first.ADP first.ADO first.len
      first.data).2
    (by rw [hs2]; omega) (by rw [hs2]; omega) (by rw [hse]; omega)
  rw [Prod.mk.eta] at aux
  obtain ⟨_, _, _, hd, he, hf⟩ := aux
  match i with
  | 0 =>
    simp only [dgDlenOff]
    by_cases hr : rest = []
    · subst hr
      have h22 := hd rfl
      rw [h22, hsd, testBit15_of_lt first.len hfl]
      simp
    · rw [he hr]
      have hpos : 0 < rest.length := List.length_pos.mpr hr
      simp [hpos]
  | Nat.succ j =>
    have hj : j < rest.length := by omega
    have hoffv := hf j hj
    rw [hs2] at hoffv
    simp only [dgDlenOff]
    rw [hoffv]
    have hm := hdisc j hj
    by_cases hcase : j + 1 < rest.length
    · rw [hm]
      simp only [decide_eq_true_eq]
      rw [if_pos hcase, testBit15_lor_mod]
      simp [hcase]
    · rw [hm]
      simp only [decide_eq_true_eq]
      rw [if_neg hcase]
      have hlen2 : (rest.get ⟨j, hj⟩).len < 32768 :=
        hl (rest.get ⟨j, hj⟩) (rest.get_mem j hj)
      rw [Nat.mod_eq_of_lt (by omega), testBit15_of_lt _ hlen2]
      simp [hcase]

theorem C4_witness :
    (getLE16 (buildFrame zeroBuf 0 ⟨12, false, 0, 0, 2, data40⟩
        [⟨14, true, 0, 0, 0, zeroBuf⟩, ⟨14, false, 0, 0, 8, zeroBuf⟩]).1
        (dgDlenOff ⟨12, false, 0, 0, 2, data40⟩
          [⟨14, true, 0, 0, 0, zeroBuf⟩, ⟨14, false, 0, 0, 8, zeroBuf⟩]
          0)).testBit 15 = decide (0 < 2) ∧
    (getLE16 (buildFrame zeroBuf 0 ⟨12, false, 0, 0, 2, data40⟩
        [⟨14, true, 0, 0, 0, zeroBuf⟩, ⟨14, false, 0, 0, 8, zeroBuf⟩]).1
        (dgDlenOff ⟨12, false, 0, 0, 2, data40⟩
          [⟨14, true, 0, 0, 0, zeroBuf⟩, ⟨14, false, 0, 0, 8, zeroBuf⟩]
          1)).testBit 15 = decide (1 < 2) ∧
    (getLE16 (buildFrame zeroBuf 0 ⟨12, false, 0, 0, 2, data40⟩
        [⟨14, true, 0, 0, 0, zeroBuf⟩, ⟨14, false, 0, 0, 8, zeroBuf⟩]).1
        (dgDlenOff ⟨12, false, 0, 0, 2, data40⟩
          [⟨14, true, 0, 0, 0, zeroBuf⟩, ⟨14, false, 0, 0, 8, zeroBuf⟩]
          2)).testBit 15 = decide (2 < 2) := by
  refine ⟨?_, ?_, ?_⟩
  · have h := C4_more_follows_bits zeroBuf 0 ⟨12, false, 0, 0, 2, data40⟩
      [⟨14, true, 0, 0, 0, zeroBuf⟩, ⟨14, false, 0, 0, 8, zeroBuf⟩] 0
      (by decide) (by decide) (by decide) (by decide) (by decide)
    simpa using h
  · have h := C4_more_follows_bits zeroBuf 0 ⟨12, false, 0, 0, 2, data40⟩
      [⟨14, true, 0, 0, 0, zeroBuf⟩, ⟨14, false, 0, 0, 8, zeroBuf⟩] 1
      (by decide) (by decide) (by decide) (by decide) (by decide)
    simpa using h
  · have h := C4_more_follows_bits zeroBuf 0 ⟨12, false, 0, 0, 2, data40⟩
      [⟨14, true, 0, 0, 0, zeroBuf⟩, ⟨14, false, 0, 0, 8, zeroBuf⟩] 2
      (by decide) (by decide) (by decide) (by decide) (by decide)
    simpa using h
